import Mathlib

/-!
Verification development for the meshcore-mqtt-live-map backend.

The definitions below are a shallow embedding of the Python sources under
`backend/`: pure fragments become Lean functions, the mutable module-level
state becomes an explicit record threaded through step functions, Python
floats are modelled as rationals, Python dicts as insertion-ordered
association lists, and Python truthiness is made explicit.  The external
pieces the backend consumes (the haversine radius test, the configured topic
regex) are abstracted as boolean-valued fields of the configuration record,
exactly as the code consumes them.
-/

/- Batteries marks the rational-number operations `@[irreducible]`, which
stops `decide` from evaluating the embedded functions on concrete inputs.
Restore the default reducibility so that concrete states evaluate. -/
set_option allowUnsafeReducibility true in
attribute [semireducible] Rat.mul Rat.add Rat.sub Rat.inv

namespace MeshMap

/-! ### Python-style dictionaries (insertion-ordered association lists) -/

/-- A Python `dict` keyed by strings: an insertion-ordered association list. -/
abbrev Dict (α : Type) : Type := List (String × α)

/-- `d.get(k)`: first binding of `k`, if any. -/
def dget : Dict α → String → Option α
  | [], _ => none
  | (k, v) :: rest, key => if k = key then some v else dget rest key

/-- `k in d`. -/
def dmem (d : Dict α) (key : String) : Bool :=
  (dget d key).isSome

/-- `d[k] = v`: replace the existing binding in place, else append. -/
def dset : Dict α → String → α → Dict α
  | [], key, v => [(key, v)]
  | (k, w) :: rest, key, v =>
      if k = key then (k, v) :: rest else (k, w) :: dset rest key v

/-- `d.pop(k, None)`: drop every binding of `k`. -/
def derase (d : Dict α) (key : String) : Dict α :=
  d.filter (fun kv => kv.1 ≠ key)

/-- `d.keys()` in insertion order. -/
def dkeys (d : Dict α) : List String :=
  d.map Prod.fst

@[simp] theorem dget_nil (key : String) : dget ([] : Dict α) key = none := rfl

@[simp] theorem dget_cons (k : String) (v : α) (rest : Dict α) (key : String) :
    dget ((k, v) :: rest) key = if k = key then some v else dget rest key := rfl

theorem dget_derase (d : Dict α) (k key : String) :
    dget (derase d k) key = if key = k then none else dget d key := by
  induction d with
  | nil => by_cases h : key = k <;> simp [derase, h]
  | cons kv rest ih =>
      obtain ⟨k', v⟩ := kv
      by_cases h1 : k' = k
      · subst h1
        by_cases h2 : key = k'
        · subst h2
          simpa [derase, List.filter] using ih
        · have h3 : ¬k' = key := fun h => h2 h.symm
          simpa [derase, List.filter, h2, h3] using ih
      · by_cases h2 : k' = key
        · have h3 : ¬key = k := fun h => h1 (h2.trans h)
          simp [derase, List.filter, h1, h2, h3]
        · simpa [derase, List.filter, h1, h2] using ih

theorem dget_dset (d : Dict α) (k key : String) (v : α) :
    dget (dset d k v) key = if k = key then some v else dget d key := by
  induction d with
  | nil => simp [dset]
  | cons kv rest ih =>
      obtain ⟨k', w⟩ := kv
      by_cases h1 : k' = k
      · subst h1
        by_cases h2 : k' = key <;> simp [dset, h2]
      · by_cases h2 : k' = key
        · have h3 : ¬k = key := fun h => h1 (h2.trans h.symm)
          have h4 : ¬key = k := fun h => h3 h.symm
          simp [dset, h1, h2, h3, h4]
        · simp [dset, h1, h2, ih]

/-! ### Python truthiness and numeric coercions -/

/-! ### Character-level string helpers (kernel-computable models of the
Python `str` methods used by the code) -/

/-- ASCII whitespace, as stripped by `str.strip()` on these payloads. -/
def isSpaceChar (c : Char) : Bool :=
  c = ' ' || c = '\t' || c = '\n' || c = '\r'

/-- `s.strip()`. -/
def strTrim (s : String) : String :=
  ⟨((s.data.dropWhile isSpaceChar).reverse.dropWhile isSpaceChar).reverse⟩

/-- `s.lower()`. -/
def strLower (s : String) : String :=
  ⟨s.data.map Char.toLower⟩

/-- `s.upper()`. -/
def strUpper (s : String) : String :=
  ⟨s.data.map Char.toUpper⟩

/-- `s.startswith(p)`. -/
def strStartsWith (s p : String) : Bool :=
  p.data.isPrefixOf s.data

/-- `s.endswith(p)`. -/
def strEndsWith (s p : String) : Bool :=
  p.data.reverse.isPrefixOf s.data.reverse

/-- `s[n:]` (character count). -/
def strDropChars (s : String) (n : ℕ) : String :=
  ⟨s.data.drop n⟩

/-- `s[:n]` (character count). -/
def strTakeChars (s : String) (n : ℕ) : String :=
  ⟨s.data.take n⟩

/-- Truthiness of an optional string (`None` and `""` are falsy). -/
def tstr : Option String → Bool
  | none => false
  | some s => s ≠ ""

/-- Truthiness of an optional number (`None` and `0` are falsy). -/
def tnum : Option ℚ → Bool
  | none => false
  | some q => q ≠ 0

/-- Truthiness of an optional list (`None` and `[]` are falsy). -/
def tlist : Option (List α) → Bool
  | none => false
  | some l => !l.isEmpty

/-- `abs` on a rational, written out so that it evaluates in the kernel. -/
def ratAbs (q : ℚ) : ℚ :=
  if q < 0 then -q else q

theorem ratAbs_eq_abs (q : ℚ) : ratAbs q = |q| := by
  unfold ratAbs
  by_cases h : q < 0
  · rw [if_pos h, abs_of_neg h]
  · rw [if_neg h, abs_of_nonneg (not_lt.mp h)]

instance {ε α : Type} [DecidableEq ε] [DecidableEq α] : DecidableEq (Except ε α) :=
  fun a b =>
    match a, b with
    | .error e1, .error e2 =>
        if h : e1 = e2 then .isTrue (congrArg Except.error h)
        else .isFalse (fun hc => h (Except.error.inj hc))
    | .ok a1, .ok a2 =>
        if h : a1 = a2 then .isTrue (congrArg Except.ok h)
        else .isFalse (fun hc => h (Except.ok.inj hc))
    | .error _, .ok _ => .isFalse (fun hc => Except.noConfusion hc)
    | .ok _, .error _ => .isFalse (fun hc => Except.noConfusion hc)

/-- Python `int(q)` on a float value: truncation toward zero. -/
def pyInt (q : ℚ) : ℤ :=
  if q ≥ 0 then ⌊q⌋ else -⌊-q⌋

/-- `round(q, 6)` modelled on rationals (ties away from the lower value). -/
def round6 (q : ℚ) : ℚ :=
  (⌊q * 1000000 + 1/2⌋ : ℚ) / 1000000

theorem round6_idem (q : ℚ) : round6 (round6 q) = round6 q := by
  unfold round6
  have h : (⌊q * 1000000 + 1/2⌋ : ℚ) / 1000000 * 1000000 = ⌊q * 1000000 + 1/2⌋ := by
    field_simp
  rw [h]
  norm_num

theorem round6_ge_of_ge (q : ℚ) (h : q ≥ 1/1000000) : round6 q ≥ 1/1000000 := by
  have hfloor : (1 : ℤ) ≤ ⌊q * 1000000 + 1/2⌋ := by
    apply Int.le_floor.mpr
    have : (1 : ℚ) ≤ q * 1000000 := by
      calc (1 : ℚ) = 1/1000000 * 1000000 := by norm_num
        _ ≤ q * 1000000 := mul_le_mul_of_nonneg_right h (by norm_num)
    push_cast
    linarith
  unfold round6
  rw [ge_iff_le, le_div_iff₀ (by norm_num : (0:ℚ) < 1000000)]
  calc (1 : ℚ)/1000000 * 1000000 = 1 := by norm_num
    _ ≤ (⌊q * 1000000 + 1/2⌋ : ℚ) := by exact_mod_cast hfloor

theorem round6_le_of_le (q : ℚ) (h : q ≤ -(1/1000000)) : round6 q ≤ -(1/1000000) := by
  have hfloor : ⌊q * 1000000 + 1/2⌋ ≤ -1 := by
    have h1 : q * 1000000 ≤ -1 := by
      calc q * 1000000 ≤ -(1/1000000) * 1000000 :=
            mul_le_mul_of_nonneg_right h (by norm_num)
        _ = -1 := by norm_num
    have h2 : q * 1000000 + 1/2 < ((0 : ℤ) : ℚ) := by push_cast; linarith
    have h3 := Int.floor_lt.mpr h2
    omega
  unfold round6
  rw [div_le_iff₀ (by norm_num : (0:ℚ) < 1000000)]
  calc (⌊q * 1000000 + 1/2⌋ : ℚ) ≤ -1 := by exact_mod_cast hfloor
    _ = -(1/1000000) * 1000000 := by norm_num

/-! ### Configuration record (`config.py` values consumed by the core) -/

/-- A map coordinate: Python `[lat, lon]` with float entries, as rationals. -/
def Point : Type := ℚ × ℚ

instance : DecidableEq Point := inferInstanceAs (DecidableEq (ℚ × ℚ))
instance : Inhabited Point := ⟨(0, 0)⟩

/-- The immutable configuration record built at startup.  Values that the
core only ever consumes through a boolean test (the haversine radius check
against `MAP_START_*`/`MAP_RADIUS_KM`, the compiled `DIRECT_COORDS_TOPIC_REGEX`)
are carried as the test itself. -/
structure Config where
  routePathMaxLen : ℤ
  mapRadiusKm : ℚ
  /-- `_haversine_m(MAP_START_LAT, MAP_START_LON, lat, lon) <= MAP_RADIUS_KM * 1000`. -/
  haversineOk : ℚ → ℚ → Bool
  routeTtlSeconds : ℚ
  trailLen : ℤ
  heatTtlSeconds : ℚ
  /-- `ROUTE_PAYLOAD_TYPES_SET`. -/
  routePayloadTypes : List ℤ
  historyEnabled : Bool
  historyHours : ℚ
  /-- `ROUTE_HISTORY_PAYLOAD_TYPES_SET`. -/
  historyPayloadTypes : List ℤ
  /-- `ROUTE_HISTORY_ALLOWED_MODES_SET`. -/
  historyAllowedModes : List String
  historyMaxSegments : ℤ
  historySampleLimit : ℕ
  directCoordsAllowZero : Bool
  directCoordsMode : String
  /-- `DIRECT_COORDS_TOPIC_RE`: `none` when the regex failed to compile. -/
  topicRe : Option (String → Bool)
  deviceTtlSeconds : ℚ
  /-- Parsed contents of the role-overrides file (`_load_role_overrides`). -/
  roleOverrides : Dict String

/-- `_within_map_radius` / `helpers.within_map_radius` (on well-typed floats). -/
def within_map_radius (cfg : Config) (lat lon : ℚ) : Bool :=
  if cfg.mapRadiusKm ≤ 0 then true else cfg.haversineOk lat lon

/-! ### Device state (`state.py`) -/

/-- `state.DeviceState`. -/
structure DeviceState where
  device_id : String
  lat : ℚ
  lon : ℚ
  ts : ℚ
  heading : Option ℚ := none
  speed : Option ℚ := none
  rssi : Option ℚ := none
  snr : Option ℚ := none
  name : Option String := none
  role : Option String := none
  raw_topic : Option String := none
deriving DecidableEq

/-! ### Decoder adaptor basics (`decoder.py`) -/

/-- `_coords_are_zero` on numeric inputs. -/
def coords_are_zero (lat lon : ℚ) : Bool :=
  ratAbs lat < 1/1000000 && ratAbs lon < 1/1000000

/-- A value appearing in a decoded `pathHashes` list (string, int or null). -/
inductive HashVal where
  | s (v : String)
  | i (n : ℤ)
  | null
deriving DecidableEq

/-- `[0-9a-fA-F]`. -/
def isHexChar (c : Char) : Bool :=
  c.isDigit || (('a' ≤ c) && (c ≤ 'f')) || (('A' ≤ c) && (c ≤ 'F'))

/-- Uppercase hexadecimal digits of a natural number. -/
def natHexUpper (n : ℕ) : String :=
  String.mk ((Nat.toDigits 16 n).map Char.toUpper)

/-- Python `f-string` formatting with format spec `02X` on an int. -/
def intHexPad2 (n : ℤ) : String :=
  if n < 0 then
    "-" ++ natHexUpper n.natAbs
  else
    let s := natHexUpper n.natAbs
    if s.length < 2 then "0" ++ s else s

/-- `_normalize_node_hash`. -/
def normalize_node_hash : HashVal → Option String
  | .null => none
  | .i n => some (intHexPad2 n)
  | .s v =>
      let s0 := strTrim v
      let s1 := if strStartsWith (strLower s0) "0x" then strDropChars s0 2 else s0
      let s2 := if s1.length = 1 then "0" ++ s1 else s1
      if s2.length = 2 && s2.data.all isHexChar then some (strUpper s2) else none

/-- `_node_hash_from_device_id`. -/
def node_hash_from_device_id (device_id : String) : Option String :=
  if device_id = "" || device_id.length < 2 then none
  else normalize_node_hash (.s (strTakeChars device_id 2))

/-- The three maps rebuilt by `_rebuild_node_hash_map`. -/
structure NodeHashMaps where
  candidates : Dict (List String)
  collisions : List String
  mapping : Dict String
deriving Inhabited, DecidableEq

/-- `candidates.setdefault(node_hash, []).append(device_id)`. -/
def dappendList (d : Dict (List String)) (k v : String) : Dict (List String) :=
  match dget d k with
  | none => d ++ [(k, [v])]
  | some l => dset d k (l ++ [v])

/-- `_rebuild_node_hash_map`: group device ids by node hash, publish the
mapping for the hashes with a unique candidate, mark the rest collided. -/
def rebuild_node_hash_map (devices : Dict DeviceState) : NodeHashMaps :=
  let candidates := devices.foldl (fun acc kv =>
    match node_hash_from_device_id kv.1 with
    | none => acc
    | some h => if h = "" then acc else dappendList acc h kv.1) []
  let pair := candidates.foldl (fun (acc : Dict String × List String) kv =>
    match kv.2 with
    | [only] => (acc.1 ++ [(kv.1, only)], acc.2)
    | _ => (acc.1, acc.2 ++ [kv.1])) ([], [])
  { candidates := candidates, collisions := pair.2, mapping := pair.1 }

/-- `last_seen = seen_devices.get(device_id) or state.ts or 0.0`
(Python `or` falls through falsy, i.e. zero, values). -/
def lastSeenValue (seen : Dict ℚ) (device_id : String) (st : DeviceState) : ℚ :=
  match dget seen device_id with
  | some v => if v = 0 then st.ts else v
  | none => st.ts

/-- `_choose_device_for_hash`: among the hash's candidates with known state
and non-zero coordinates, pick the one whose last-seen is closest to `ts`
(strict improvement only, so the earliest candidate wins ties). -/
def choose_device_for_hash (maps : NodeHashMaps) (devices : Dict DeviceState)
    (seen : Dict ℚ) (node_hash : String) (ts : ℚ) : Option String :=
  match dget maps.candidates node_hash with
  | none => none
  | some cands =>
      if cands.isEmpty then none
      else
        let best := cands.foldl (fun (acc : Option (String × ℚ)) device_id =>
          match dget devices device_id with
          | none => acc
          | some st =>
              if coords_are_zero st.lat st.lon then acc
              else
                let delta := ratAbs (lastSeenValue seen device_id st - ts)
                match acc with
                | none => some (device_id, delta)
                | some (bid, bdelta) =>
                    if delta < bdelta then some (device_id, delta) else some (bid, bdelta)) none
        best.map Prod.fst

/-! ### Topology resolver (`decoder._route_points_from_hashes`)

The Python function is annotated to return a 3-tuple, but its max-path-length
rejection branch executes `return None, []`, a 2-tuple.  The embedding keeps
the arity of each `return` in the result type so that callers that unpack
three values can be modelled faithfully. -/

/-- The value returned by `_route_points_from_hashes`: either the 2-tuple of
the rejection branch or the 3-tuple of every other branch. -/
inductive RoutePointsRet where
  | pair (points : Option (List Point)) (used : List String)
  | triple (points : Option (List Point)) (used : List String) (ids : List (Option String))
deriving DecidableEq

/-- The orientation step: reverse when the receiver hash leads (but does not
also trail), else when the origin hash trails (but does not also lead). -/
def orientHashes (normalized : List String) (receiverHash originHash : Option String) :
    List String :=
  match receiverHash with
  | some rh =>
      if rh ∈ normalized then
        (if normalized ≠ [] ∧ normalized.head? = some rh ∧ normalized.getLast? ≠ some rh
         then normalized.reverse else normalized)
      else
        match originHash with
        | some oh =>
            if oh ∈ normalized then
              (if normalized ≠ [] ∧ normalized.getLast? = some oh ∧ normalized.head? ≠ some oh
               then normalized.reverse else normalized)
            else normalized
        | none => normalized
  | none =>
      match originHash with
      | some oh =>
          if oh ∈ normalized then
            (if normalized ≠ [] ∧ normalized.getLast? = some oh ∧ normalized.head? ≠ some oh
             then normalized.reverse else normalized)
          else normalized
      | none => normalized

/-- The per-hash resolution loop: look the hash up in the published
hash→device map, skip unknown devices and zero coordinates, skip a point
equal to the previous one, and accumulate points, used hashes and ids. -/
def resolveLoop (mapping : Dict String) (devices : Dict DeviceState) :
    List String → List Point → List String → List (Option String) →
    List Point × List String × List (Option String)
  | [], pts, used, ids => (pts, used, ids)
  | key :: rest, pts, used, ids =>
      match dget mapping key with
      | none => resolveLoop mapping devices rest pts used ids
      | some device_id =>
          if device_id = "" then resolveLoop mapping devices rest pts used ids
          else
            match dget devices device_id with
            | none => resolveLoop mapping devices rest pts used ids
            | some st =>
                if coords_are_zero st.lat st.lon then
                  resolveLoop mapping devices rest pts used ids
                else
                  let point : Point := (st.lat, st.lon)
                  if pts ≠ [] ∧ pts.getLast? = some point then
                    resolveLoop mapping devices rest pts used ids
                  else
                    resolveLoop mapping devices rest (pts ++ [point])
                      (used ++ [key]) (ids ++ [some device_id])

/-- Prepend the origin device's point (or re-label the first point). -/
def prependOrigin (devices : Dict DeviceState) (origin_id : Option String)
    (pts : List Point) (ids : List (Option String)) :
    List Point × List (Option String) :=
  if tstr origin_id then
    match origin_id with
    | none => (pts, ids)
    | some oid =>
        match dget devices oid with
        | none => (pts, ids)
        | some ost =>
            if coords_are_zero ost.lat ost.lon then (pts, ids)
            else
              let op : Point := (ost.lat, ost.lon)
              if pts = [] ∨ pts.head? ≠ some op then (op :: pts, some oid :: ids)
              else if ids ≠ [] then (pts, ids.set 0 (some oid))
              else (pts, ids)
  else (pts, ids)

/-- Append the receiver device's point (or re-label the last point). -/
def appendReceiver (devices : Dict DeviceState) (receiver_id : Option String)
    (pts : List Point) (ids : List (Option String)) :
    List Point × List (Option String) :=
  if tstr receiver_id then
    match receiver_id with
    | none => (pts, ids)
    | some rid =>
        match dget devices rid with
        | none => (pts, ids)
        | some rst =>
            if coords_are_zero rst.lat rst.lon then (pts, ids)
            else
              let rp : Point := (rst.lat, rst.lon)
              if pts ≠ [] ∧ pts.getLast? ≠ some rp then (pts ++ [rp], ids ++ [some rid])
              else if ids ≠ [] then (pts, ids.set (ids.length - 1) (some rid))
              else (pts, ids)
  else (pts, ids)

/-- `_route_points_from_hashes`. -/
def route_points_from_hashes (cfg : Config) (maps : NodeHashMaps)
    (devices : Dict DeviceState) (path_hashes : List HashVal)
    (origin_id receiver_id : Option String) (_ts : ℚ) : RoutePointsRet :=
  let normalized := path_hashes.filterMap normalize_node_hash
  if cfg.routePathMaxLen > 0 ∧ (normalized.length : ℤ) > cfg.routePathMaxLen then
    .pair none []
  else
    let receiverHash :=
      if tstr receiver_id then
        match receiver_id with
        | some rid => node_hash_from_device_id rid
        | none => none
      else none
    let originHash :=
      if tstr origin_id then
        match origin_id with
        | some oid => node_hash_from_device_id oid
        | none => none
      else none
    let oriented := orientHashes normalized receiverHash originHash
    let resolved := resolveLoop maps.mapping devices oriented [] [] []
    let used := resolved.2.1
    let afterOrigin := prependOrigin devices origin_id resolved.1 resolved.2.2
    let afterReceiver := appendReceiver devices receiver_id afterOrigin.1 afterOrigin.2
    if afterReceiver.1.length < 2 then .triple none used afterReceiver.2
    else .triple (some afterReceiver.1) used afterReceiver.2

/-- `_route_points_from_device_ids`. -/
def route_points_from_device_ids (devices : Dict DeviceState)
    (origin_id receiver_id : Option String) : Option (List Point) :=
  if ¬ tstr origin_id ∨ ¬ tstr receiver_id ∨ origin_id = receiver_id then none
  else
    match origin_id, receiver_id with
    | some oid, some rid =>
        match dget devices oid, dget devices rid with
        | some ost, some rst =>
            if coords_are_zero ost.lat ost.lon ∨ coords_are_zero rst.lat rst.lon then none
            else
              let p1 : Point := (ost.lat, ost.lon)
              let p2 : Point := (rst.lat, rst.lon)
              if p1 = p2 then none else some [p1, p2]
        | _, _ => none
    | _, _ => none

/-! ### Route records and the history engine (`history.py`) -/

/-- The route dict built by the broadcaster and inserted into `routes`. -/
structure Route where
  id : String
  points : List Point
  hashes : List String
  point_ids : List (Option String)
  route_mode : String
  ts : ℚ
  expires_at : ℚ
  origin_id : Option String := none
  receiver_id : Option String := none
  payload_type : Option ℤ := none
  message_hash : Option String := none
  snr_values : Option (List ℚ) := none
  topic : Option String := none
deriving DecidableEq

/-- A history edge's recent-ring sample (`_history_sample_from_route`). -/
structure HistSample where
  ts : ℚ
  message_hash : Option String := none
  payload_type : Option ℤ := none
  origin_id : Option String := none
  receiver_id : Option String := none
  route_mode : Option String := none
  topic : Option String := none
deriving DecidableEq

/-- A history segment held in `route_history_segments` (and the journal). -/
structure HistSeg where
  ts : ℚ
  a : Point
  b : Point
  a_id : Option String := none
  b_id : Option String := none
  message_hash : Option String := none
  payload_type : Option ℤ := none
  origin_id : Option String := none
  receiver_id : Option String := none
  route_mode : Option String := none
  topic : Option String := none
deriving DecidableEq

/-- An entry of `route_history_edges`. -/
structure HistEdge where
  a : Point
  b : Point
  count : ℤ
  last_ts : ℚ
  recent : List HistSample := []
deriving DecidableEq

/-- The history engine's mutable state. -/
structure HistState where
  segments : List HistSeg
  edges : Dict HistEdge
  compact : Bool
deriving DecidableEq

/-- Left-pad a natural number's decimal digits to six places. -/
def padZeros6 (m : ℕ) : String :=
  let s := toString m
  String.mk (List.replicate (6 - s.length) '0') ++ s

/-- `f"{q:.6f}"`: six-decimal fixed-point rendering of a coordinate. -/
def fmt6 (q : ℚ) : String :=
  let n : ℤ := ⌊q * 1000000 + 1/2⌋
  let sign := if n < 0 then "-" else ""
  sign ++ toString (n.natAbs / 1000000) ++ "." ++ padZeros6 (n.natAbs % 1000000)

/-- Python tuple comparison `a <= b` on a coordinate pair. -/
def pairLe (a b : Point) : Bool :=
  a.1 < b.1 || (a.1 = b.1 && a.2 ≤ b.2)

/-- `_history_edge_key`: sort the endpoints, render the canonical key. -/
def history_edge_key (a b : Point) : String × Point × Point :=
  if pairLe a b then
    (fmt6 a.1 ++ "," ++ fmt6 a.2 ++ "|" ++ fmt6 b.1 ++ "," ++ fmt6 b.2, a, b)
  else
    (fmt6 b.1 ++ "," ++ fmt6 b.2 ++ "|" ++ fmt6 a.1 ++ "," ++ fmt6 a.2, b, a)

/-- `_normalize_history_point` on a well-typed coordinate pair. -/
def normalize_history_point (cfg : Config) (p : Point) : Option Point :=
  if coords_are_zero p.1 p.2 then none
  else if ¬ within_map_radius cfg p.1 p.2 then none
  else some (round6 p.1, round6 p.2)

/-- `_history_payload_allowed`. -/
def history_payload_allowed (cfg : Config) (payload_type : Option ℤ) : Bool :=
  if ¬ cfg.historyEnabled ∨ cfg.historyHours ≤ 0 then false
  else if cfg.historyPayloadTypes.isEmpty then true
  else match payload_type with
    | none => false
    | some pt => pt ∈ cfg.historyPayloadTypes

/-- `_history_sample_from_route`. -/
def history_sample_from_route (route : Route) (ts : ℚ) : HistSample :=
  { ts := ts
    message_hash := route.message_hash
    payload_type := route.payload_type
    origin_id := route.origin_id
    receiver_id := route.receiver_id
    route_mode := some route.route_mode
    topic := route.topic }

/-- `_update_history_edge_recent`: append, stable-sort newest-first, cap. -/
def update_history_edge_recent (cfg : Config) (edge : HistEdge) (sample : HistSample) :
    HistEdge :=
  let recent := (edge.recent ++ [sample]).mergeSort (fun s1 s2 => s2.ts ≤ s1.ts)
  let recent := if recent.length > cfg.historySampleLimit
    then recent.take cfg.historySampleLimit else recent
  { edge with recent := recent }

/-- One iteration of the segment-recording loop of `_record_route_history`:
given the two raw endpoints and their ids, either skip or produce the new
segment and the updated edge map. -/
def recordPair (cfg : Config) (sample : HistSample) (ts : ℚ)
    (a_raw b_raw : Point) (a_id b_id : Option String)
    (edges : Dict HistEdge) (entries : List HistSeg) (updatedKeys : List String) :
    Dict HistEdge × List HistSeg × List String :=
  match normalize_history_point cfg a_raw, normalize_history_point cfg b_raw with
  | some a, some b =>
      let kfs := history_edge_key a b
      let key := kfs.1
      let first := kfs.2.1
      let second := kfs.2.2
      let entry : HistSeg :=
        { ts := ts, a := first, b := second, a_id := a_id, b_id := b_id
          message_hash := sample.message_hash, payload_type := sample.payload_type
          origin_id := sample.origin_id, receiver_id := sample.receiver_id
          route_mode := sample.route_mode, topic := sample.topic }
      let edge0 := match dget edges key with
        | some e => e
        | none => { a := first, b := second, count := 0, last_ts := ts, recent := [] }
      let edge1 := { edge0 with count := edge0.count + 1, last_ts := max edge0.last_ts ts }
      let edge2 := update_history_edge_recent cfg edge1 sample
      (dset edges key edge2, entries ++ [entry],
        if key ∈ updatedKeys then updatedKeys else updatedKeys ++ [key])
  | _, _ => (edges, entries, updatedKeys)

/-- The loop of `_record_route_history` over consecutive point pairs,
carrying the loop index for the `point_ids` bound check. -/
def recordLoop (cfg : Config) (sample : HistSample) (ts : ℚ)
    (point_ids : List (Option String)) :
    List Point → ℕ → Dict HistEdge → List HistSeg → List String →
    Dict HistEdge × List HistSeg × List String
  | p0 :: p1 :: rest, idx, edges, entries, updatedKeys =>
      let withIds := point_ids ≠ [] ∧ idx < point_ids.length - 1
      let a_id := if withIds then point_ids.getD idx none else none
      let b_id := if withIds then point_ids.getD (idx + 1) none else none
      let step := recordPair cfg sample ts p0 p1 a_id b_id edges entries updatedKeys
      recordLoop cfg sample ts point_ids (p1 :: rest) (idx + 1) step.1 step.2.1 step.2.2
  | _, _, edges, entries, updatedKeys => (edges, entries, updatedKeys)

/-- The result triple of a record or prune call:
(new state, updated edges broadcast, removed edge ids). -/
structure HistResult where
  state : HistState
  updates : List HistEdge
  removed : List String
deriving DecidableEq

/-- The popping loop of `_prune_route_history`. -/
def pruneLoop (cfg : Config) (now cutoff : ℚ) (force : Bool) :
    List HistSeg → Dict HistEdge → Bool → Dict HistEdge → List String →
    List HistSeg × Dict HistEdge × Bool × Dict HistEdge × List String
  | [], edges, compact, updated, removed => ([], edges, compact, updated, removed)
  | seg :: rest, edges, compact, updated, removed =>
      if ¬ force ∧ seg.ts ≥ cutoff then (seg :: rest, edges, compact, updated, removed)
      else if force ∧ cfg.historyMaxSegments > 0 ∧
          ((seg :: rest).length : ℤ) ≤ cfg.historyMaxSegments then
        (seg :: rest, edges, compact, updated, removed)
      else
        match normalize_history_point cfg seg.a, normalize_history_point cfg seg.b with
        | some a, some b =>
            let key := (history_edge_key a b).1
            (match dget edges key with
             | none => pruneLoop cfg now cutoff force rest edges true updated removed
             | some edge =>
                 let count := edge.count - 1
                 let recent := edge.recent.filter (fun s =>
                   (if s.ts = 0 then (0 : ℚ) else s.ts) ≥ cutoff)
                 let edge := { edge with count := count, recent := recent }
                 if count ≤ 0 then
                   pruneLoop cfg now cutoff force rest (derase edges key) true
                     updated (removed ++ [key])
                 else
                   pruneLoop cfg now cutoff force rest (dset edges key edge) true
                     (dset updated key edge) removed)
        | _, _ => pruneLoop cfg now cutoff force rest edges true updated removed

/-- `_prune_route_history`. -/
def prune_route_history (cfg : Config) (hist : HistState) (now : ℚ)
    (force : Bool) : HistResult :=
  if ¬ cfg.historyEnabled ∨ hist.segments = [] then
    { state := hist, updates := [], removed := [] }
  else
    let cutoff := now - cfg.historyHours * 3600
    let res := pruneLoop cfg now cutoff force hist.segments hist.edges
      hist.compact [] []
    { state := { segments := res.1, edges := res.2.1, compact := res.2.2.1 }
      updates := (res.2.2.2.1).map Prod.snd
      removed := res.2.2.2.2 }

/-- `_record_route_history`. -/
def record_route_history (cfg : Config) (hist : HistState) (route : Route)
    (now : ℚ) : HistResult :=
  if ¬ cfg.historyEnabled then { state := hist, updates := [], removed := [] }
  else if ¬ cfg.historyAllowedModes.isEmpty ∧
      (route.route_mode = "" ∨ route.route_mode ∉ cfg.historyAllowedModes) then
    { state := hist, updates := [], removed := [] }
  else if ¬ history_payload_allowed cfg route.payload_type then
    { state := hist, updates := [], removed := [] }
  else if route.points.length < 2 then
    { state := hist, updates := [], removed := [] }
  else
    let ts := if route.ts = 0 then now else route.ts
    let sample := history_sample_from_route route ts
    let step := recordLoop cfg sample ts route.point_ids route.points 0
      hist.edges [] []
    let edges := step.1
    let entries := step.2.1
    let updatedKeys := step.2.2
    if entries.isEmpty then { state := hist, updates := [], removed := [] }
    else
      let segments := hist.segments ++ entries
      let hist1 : HistState := { segments := segments, edges := edges, compact := hist.compact }
      let updates := updatedKeys.filterMap (fun k => dget edges k)
      if cfg.historyMaxSegments > 0 ∧ (segments.length : ℤ) > cfg.historyMaxSegments then
        let pruned := prune_route_history cfg hist1 now true
        { state := pruned.state
          updates := updates ++ pruned.updates
          removed := pruned.removed }
      else
        { state := hist1, updates := updates, removed := [] }

/-! ### Application state and neighbor graph (`app.py`, `state.py`) -/

/-- A trail entry `[lat, lon, ts]`. -/
abbrev TrailEntry : Type := ℚ × ℚ × ℚ

/-- A heat event appended by `_append_heat_points`. -/
structure HeatEvent where
  lat : ℚ
  lon : ℚ
  ts : ℚ
  weight : ℚ
deriving DecidableEq

/-- One directed neighbor edge entry. -/
structure NeighborEntry where
  count : ℤ
  last_seen : ℚ
  manual : Bool
deriving DecidableEq

/-- The in-memory state owned by the loop thread (the mutable module-level
structures of `state.py` that the broadcaster and reaper touch). -/
structure AppState where
  devices : Dict DeviceState
  trails : Dict (List TrailEntry)
  seen_devices : Dict ℚ
  mqtt_seen : Dict ℚ
  last_seen_broadcast : Dict ℚ
  device_names : Dict String
  device_roles : Dict String
  device_role_sources : Dict String
  routes : Dict Route
  heat_events : List HeatEvent
  hist : HistState
  neighbor_edges : Dict (Dict NeighborEntry)
  nodeMaps : NodeHashMaps
  state_dirty : Bool
deriving DecidableEq

/-- The state with every container empty (process start). -/
def emptyAppState : AppState :=
  { devices := [], trails := [], seen_devices := [], mqtt_seen := []
    last_seen_broadcast := [], device_names := [], device_roles := []
    device_role_sources := [], routes := [], heat_events := []
    hist := { segments := [], edges := [], compact := false }
    neighbor_edges := [], nodeMaps := default, state_dirty := false }

/-- `_evict_device` / `services.broadcaster.evict_device`. -/
def evict_device (st : AppState) (device_id : String) : Bool × AppState :=
  let removed := dmem st.devices device_id
  let devices := derase st.devices device_id
  let st := { st with
    devices := devices
    trails := derase st.trails device_id
    seen_devices := derase st.seen_devices device_id
    mqtt_seen := derase st.mqtt_seen device_id
    last_seen_broadcast := derase st.last_seen_broadcast device_id }
  if removed then
    (true, { st with state_dirty := true, nodeMaps := rebuild_node_hash_map devices })
  else
    (false, st)

/-- `_touch_neighbor`. -/
def touch_neighbor (edges : Dict (Dict NeighborEntry)) (src_id dst_id : String)
    (ts : ℚ) (manual : Bool) : Dict (Dict NeighborEntry) :=
  if src_id = "" ∨ dst_id = "" ∨ src_id = dst_id then edges
  else
    let neighbors := (dget edges src_id).getD []
    let entry := (dget neighbors dst_id).getD { count := 0, last_seen := 0, manual := false }
    let entry := if manual then { entry with manual := true }
      else { entry with count := entry.count + 1 }
    let entry := { entry with last_seen := max entry.last_seen ts }
    dset edges src_id (dset neighbors dst_id entry)

/-- `_record_neighbors`: touch every consecutive pair in both directions. -/
def record_neighbors_loop (ts : ℚ) :
    List (Option String) → Dict (Dict NeighborEntry) → Dict (Dict NeighborEntry)
  | src :: dst :: rest, edges =>
      record_neighbors_loop ts (dst :: rest)
        (if ¬ tstr src ∨ ¬ tstr dst ∨ src = dst then edges
         else touch_neighbor (touch_neighbor edges (src.getD "") (dst.getD "") ts false)
           (dst.getD "") (src.getD "") ts false)
  | _, edges => edges

/-- `_record_neighbors`. -/
def record_neighbors (point_ids : List (Option String)) (ts : ℚ)
    (edges : Dict (Dict NeighborEntry)) : Dict (Dict NeighborEntry) :=
  if point_ids.length < 2 then edges
  else record_neighbors_loop ts point_ids edges

/-- `_append_heat_points`. -/
def append_heat_points (cfg : Config) (heat : List HeatEvent) (points : List Point)
    (ts : ℚ) : List HeatEvent :=
  if cfg.heatTtlSeconds ≤ 0 then heat
  else heat ++ points.map (fun p => { lat := p.1, lon := p.2, ts := ts, weight := 7/10 })

/-! ### Broadcaster steps (`app.py broadcaster`, `services/broadcaster.py`) -/

/-- A route event dict as enqueued by the ingest handler. -/
structure RouteEvent where
  route_mode : Option String := none
  points : Option (List Point) := none
  path_hashes : Option (List HashVal) := none
  payload_type : Option ℤ := none
  message_hash : Option String := none
  origin_id : Option String := none
  receiver_id : Option String := none
  snr_values : Option (List ℚ) := none
  route_type : Option ℤ := none
  ts : Option ℚ := none
  topic : Option String := none
  route_id : Option String := none
deriving DecidableEq

/-- The broadcaster coroutine dies when a statement raises; unpacking the
resolver's 2-tuple rejection value into three targets raises `ValueError`. -/
inductive BroadcastCrash where
  | unpackValueError
deriving DecidableEq

/-- The state mutations of the route branch once the route dict has been
built: heat points, route insertion, neighbor recording (only when the route
was resolved from path hashes, i.e. `point_ids and used_hashes`), history. -/
def apply_route_insert (cfg : Config) (st : AppState) (route : Route)
    (now : ℚ) : AppState :=
  let heat := append_heat_points cfg st.heat_events route.points route.ts
  let routes := dset st.routes route.id route
  let neighbors :=
    if ¬ route.point_ids.isEmpty ∧ ¬ route.hashes.isEmpty then
      record_neighbors route.point_ids route.ts st.neighbor_edges
    else st.neighbor_edges
  let histRes := record_route_history cfg st.hist route now
  { st with heat_events := heat, routes := routes
            neighbor_edges := neighbors, hist := histRes.state }

/-- The route-event branch of the broadcaster loop (`app.py` version, which
also records the neighbor graph).  Returns the updated state and the route
frame broadcast, or the crash that kills the coroutine. -/
def broadcaster_route_step (cfg : Config) (st : AppState) (ev : RouteEvent)
    (now : ℚ) : Except BroadcastCrash (AppState × Option Route) :=
  let mode0 := ev.route_mode
  let evTs := match ev.ts with
    | some t => if t = 0 then now else t
    | none => now
  let step1 : Except BroadcastCrash (Option (List Point) × List String × List (Option String)) :=
    if ¬ tlist ev.points then
      match route_points_from_hashes cfg st.nodeMaps st.devices
          (ev.path_hashes.getD []) ev.origin_id ev.receiver_id evTs with
      | .pair _ _ => .error .unpackValueError
      | .triple p u i => .ok (p, u, i)
    else .ok (ev.points, [], [])
  match step1 with
  | .error e => .error e
  | .ok (points1, used, ids1) =>
      let fan :=
        if ¬ tlist points1 ∧ mode0 = some "fanout" then
          let pts := route_points_from_device_ids st.devices ev.origin_id ev.receiver_id
          let ids := if tlist pts ∧ tstr ev.origin_id ∧ tstr ev.receiver_id ∧
              (pts.getD []).length = 2
            then [ev.origin_id.getD "", ev.receiver_id.getD ""].map some
            else ids1
          (if tlist pts then pts else points1, ids, mode0)
        else (points1, ids1, mode0)
      let dir :=
        if ¬ tlist fan.1 then
          let pts := route_points_from_device_ids st.devices ev.origin_id ev.receiver_id
          if tlist pts then
            let ids := if tstr ev.origin_id ∧ tstr ev.receiver_id ∧
                (pts.getD []).length = 2
              then [ev.origin_id.getD "", ev.receiver_id.getD ""].map some
              else fan.2.1
            (pts, ids, some "direct")
          else fan
        else fan
      match dir.1 with
      | none => .ok (st, none)
      | some points =>
          if points.isEmpty then .ok (st, none)
          else if cfg.mapRadiusKm > 0 ∧
              points.any (fun p => ¬ within_map_radius cfg p.1 p.2) then
            .ok (st, none)
          else
            let point_ids := dir.2.1
            let route_mode := dir.2.2
            let route_id :=
              if tstr ev.route_id then ev.route_id.getD ""
              else if tstr ev.message_hash then ev.message_hash.getD ""
              else
                (match ev.origin_id with | some o => o | none => "None") ++ "-" ++
                  toString (pyInt ((match ev.ts with | some t => t | none => now) * 1000))
            let ts := evTs
            let expires_at := ts + cfg.routeTtlSeconds
            let route : Route :=
              { id := route_id, points := points, hashes := used
                point_ids := point_ids
                route_mode := match route_mode with
                  | some m => if m ≠ "" then m else (if ¬ used.isEmpty then "path" else "direct")
                  | none => if ¬ used.isEmpty then "path" else "direct"
                ts := ts, expires_at := expires_at
                origin_id := ev.origin_id, receiver_id := ev.receiver_id
                payload_type := ev.payload_type, message_hash := ev.message_hash
                snr_values := ev.snr_values, topic := ev.topic }
            .ok (apply_route_insert cfg st route now, some route)

/-- A parsed device-position update dict (`type: device` events). -/
structure Upd where
  device_id : String
  lat : ℚ
  lon : ℚ
  ts : ℚ
  heading : Option ℚ := none
  speed : Option ℚ := none
  rssi : Option ℚ := none
  snr : Option ℚ := none
  name : Option String := none
  role : Option String := none
  raw_topic : Option String := none
deriving DecidableEq

/-- The device-position branch of the broadcaster loop. -/
def broadcaster_position_step (cfg : Config) (st : AppState) (upd : Upd)
    (now : ℚ) : AppState :=
  if ¬ within_map_radius cfg upd.lat upd.lon then
    (evict_device st upd.device_id).2
  else
    let device_id := upd.device_id
    let is_new := ¬ dmem st.devices device_id
    let ds : DeviceState :=
      { device_id := device_id, lat := upd.lat, lon := upd.lon, ts := upd.ts
        heading := upd.heading, speed := upd.speed, rssi := upd.rssi, snr := upd.snr
        name := if tstr upd.name then upd.name else dget st.device_names device_id
        role := if tstr upd.role then upd.role else dget st.device_roles device_id
        raw_topic := upd.raw_topic }
    let devices := dset st.devices device_id ds
    let seen := dset st.seen_devices device_id now
    let nodeMaps := if is_new then rebuild_node_hash_map devices else st.nodeMaps
    let names := if tstr ds.name then dset st.device_names device_id (ds.name.getD "")
      else st.device_names
    let roles := if tstr ds.role then dset st.device_roles device_id (ds.role.getD "")
      else st.device_roles
    let trails :=
      if cfg.trailLen > 0 ∧ ¬ coords_are_zero ds.lat ds.lon then
        let tr := (dget st.trails device_id).getD [] ++ [(ds.lat, ds.lon, ds.ts)]
        let tr := if (tr.length : ℤ) > cfg.trailLen
          then tr.drop (tr.length - cfg.trailLen.toNat) else tr
        dset st.trails device_id tr
      else if dmem st.trails device_id then derase st.trails device_id
      else st.trails
    { st with devices := devices, seen_devices := seen, nodeMaps := nodeMaps
              device_names := names, device_roles := roles, trails := trails
              state_dirty := true }

/-! ### Reaper route sweep and websocket snapshot -/

/-- The route sweeps of one reaper tick: first remove routes containing a
zero-coordinate point, then routes whose `expires_at` has passed. -/
def reaper_sweep_routes (routes : Dict Route) (now : ℚ) :
    Dict Route × List String × List String :=
  let bad := (routes.filter (fun kv =>
    kv.2.points.any (fun p => coords_are_zero p.1 p.2))).map Prod.fst
  let routes1 := routes.filter (fun kv =>
    ¬ kv.2.points.any (fun p => coords_are_zero p.1 p.2))
  let stale := (routes1.filter (fun kv => now > kv.2.expires_at)).map Prod.fst
  let routes2 := routes1.filter (fun kv => ¬ now > kv.2.expires_at)
  (routes2, bad, stale)

/-- The `routes` list of the initial websocket snapshot frame
(`ws_endpoint`): every value of the routes map, unfiltered. -/
def snapshot_routes (st : AppState) : List Route :=
  st.routes.map Prod.snd

/-! ### Ingest route-event emission (`services/mqtt.py on_message`, lines
210-336; identical to `app.py mqtt_on_message`) -/

/-- The inputs the emission fragment consumes, after metadata extraction,
message-origin-cache resolution and int coercion of the type fields. -/
structure RouteEmitInputs where
  /-- `decoder_meta.get("pathHashes")` when it is a list, else `none`. -/
  path_hashes : Option (List HashVal) := none
  /-- `decoder_meta.get("path")` when it is a list, else `none`. -/
  path_header : Option (List HashVal) := none
  payload_type : Option ℤ := none
  route_type : Option ℤ := none
  message_hash : Option String := none
  /-- The route origin after the message-origin-cache fallbacks. -/
  route_origin_id : Option String := none
  receiver_id : Option String := none
  /-- `str(direction or "").lower()`. -/
  direction_value : String := ""
  topic : String := ""
deriving DecidableEq

/-- `route_hashes`: decoded `pathHashes`, else the `path` header when the
payload type is not 8/9 and the route type is 0/1. -/
def route_hashes_of (inp : RouteEmitInputs) : Option (List HashVal) :=
  if tlist inp.path_hashes then inp.path_hashes
  else if (inp.payload_type ≠ some 8 ∧ inp.payload_type ≠ some 9) ∧
      inp.path_header.isSome then
    (if inp.route_type = some 0 ∨ inp.route_type = some 1 then inp.path_header else none)
  else none

/-- Which route events `on_message` enqueues for one broker message. -/
inductive EmittedRoute where
  | path (hashes : List HashVal)
  | fanout (route_id : String)
  | direct (route_id : String)
deriving DecidableEq

/-- The route-emission fragment: at most one `path`/`fanout` event, then the
`direct` fallback when nothing was emitted. -/
def emit_route_events (cfg : Config) (inp : RouteEmitInputs) (now : ℚ) :
    List EmittedRoute :=
  let route_hashes := route_hashes_of inp
  let ptInSet : Bool := match inp.payload_type with
    | some pt => cfg.routePayloadTypes.contains pt
    | none => false
  let first : List EmittedRoute :=
    if tlist route_hashes ∧ ptInSet then
      [.path (route_hashes.getD [])]
    else if tstr inp.message_hash ∧ tstr inp.route_origin_id ∧ tstr inp.receiver_id then
      if inp.direction_value = "rx" ∧ strEndsWith inp.topic "/packets" then
        [.fanout ((inp.message_hash.getD "") ++ "-" ++ (inp.receiver_id.getD ""))]
      else []
    else []
  if first.isEmpty ∧ inp.direction_value = "rx" ∧ strEndsWith inp.topic "/packets" ∧
      tstr inp.receiver_id ∧ tstr inp.route_origin_id ∧
      inp.receiver_id ≠ inp.route_origin_id ∧ ptInSet then
    [.direct ("direct-" ++
      (if tstr inp.message_hash then inp.message_hash.getD ""
       else (inp.route_origin_id.getD "") ++ "-" ++ (inp.receiver_id.getD "") ++ "-" ++
         toString (pyInt (now * 1000))))]
  else first

/-! ### Direct-coordinate policy (`decoder._has_location_hints`,
`decoder._direct_coords_allowed`, `decoder._try_parse_payload`) -/

/-- A JSON value (payloads are decoded JSON documents). -/
inductive Json where
  | null
  | bool (b : Bool)
  | num (q : ℚ)
  | str (s : String)
  | arr (l : List Json)
  | obj (o : List (String × Json))

/-- The location-hint key set of `_has_location_hints`. -/
def LOCATION_HINT_KEYS : List String :=
  ["location", "gps", "position", "coords", "coordinate", "geo", "geolocation", "latlon"]

mutual

/-- `_has_location_hints`: a dict key (lowercased) in the hint set, at any
depth through dict and list values. -/
def has_location_hints : Json → Bool
  | .obj o => hintsItems o
  | .arr l => hintsElems l
  | _ => false

/-- The dict-items walk of `_has_location_hints`. -/
def hintsItems : List (String × Json) → Bool
  | [] => false
  | (k, v) :: rest =>
      (LOCATION_HINT_KEYS.contains (strLower k)) ||
      (match v with
       | .obj o => hintsItems o
       | .arr l => hintsElems l
       | _ => false) ||
      hintsItems rest

/-- The list-elements walk of `_has_location_hints`. -/
def hintsElems : List Json → Bool
  | [] => false
  | v :: rest => has_location_hints v || hintsElems rest

end

/-- `_direct_coords_allowed` (the payload object is `none` on the plain-text
path). -/
def direct_coords_allowed (cfg : Config) (topic : String) (obj : Option Json) : Bool :=
  if cfg.directCoordsMode = "off" then false
  else if cfg.directCoordsMode = "any" then true
  else if cfg.directCoordsMode = "topic" ∨ cfg.directCoordsMode = "strict" then
    if (match cfg.topicRe with | some re => re topic | none => false) then true
    else if cfg.directCoordsMode = "topic" then false
    else match obj with
      | some o => has_location_hints o
      | none => false
  else true

/-- The outcome of the direct-coordinate gate inside `_try_parse_payload`
once a lat/lon pair has been found in the JSON document. -/
inductive DirectOutcome where
  | blocked
  | zeroCoords
  | accepted
deriving DecidableEq

/-- Lines 746-754 of `decoder.py`: the policy gate applied to a coordinate
pair found directly in a JSON payload. -/
def direct_json_decision (cfg : Config) (topic : String) (obj : Json)
    (found : Point) : DirectOutcome :=
  if ¬ direct_coords_allowed cfg topic (some obj) then .blocked
  else if ¬ cfg.directCoordsAllowZero ∧ coords_are_zero found.1 found.2 then .zeroCoords
  else .accepted

/-! ### Persistence (`services/persistence.py`; same logic as `app.py`) -/

/-- The persisted snapshot document (`serialize_state`), minus the
`version`/`saved_at` metadata. -/
structure SavedState where
  devices : Dict DeviceState
  trails : Dict (List TrailEntry)
  seen_devices : Dict ℚ
  device_names : Dict String
  device_roles : Dict String
  device_role_sources : Dict String
deriving DecidableEq

/-- `serialize_state`. -/
def serialize_state (st : AppState) : SavedState :=
  { devices := st.devices, trails := st.trails, seen_devices := st.seen_devices
    device_names := st.device_names, device_roles := st.device_roles
    device_role_sources := st.device_role_sources }

/-- The maps `load_state` rebuilds (the rest of the state is untouched). -/
structure LoadedMaps where
  devices : Dict DeviceState
  trails : Dict (List TrailEntry)
  seen_devices : Dict ℚ
  device_names : Dict String
  device_roles : Dict String
  device_role_sources : Dict String
  nodeMaps : NodeHashMaps
  state_dirty : Bool
deriving DecidableEq

/-- Device filtering on load: drop zero-coordinate and out-of-radius devices. -/
def load_device_ok (cfg : Config) (ds : DeviceState) : Bool :=
  ¬ (coords_are_zero ds.lat ds.lon || ¬ within_map_radius cfg ds.lat ds.lon)

/-- The per-entry filter of the trail-cleaning pass of `load_state`. -/
def trail_entry_ok (cfg : Config) (e : TrailEntry) : Bool :=
  ¬ (coords_are_zero e.1 e.2.1 || ¬ within_map_radius cfg e.1 e.2.1)

/-- The trail-cleaning pass of `load_state`: keep entries that are neither
zero-coordinate nor out of radius, drop trails that end up empty. -/
def clean_trails (cfg : Config) : Dict (List TrailEntry) → Dict (List TrailEntry) × Bool
  | [] => ([], false)
  | (id, tr) :: rest =>
      let filtered := tr.filter (trail_entry_ok cfg)
      let restRes := clean_trails cfg rest
      if filtered.isEmpty then (restRes.1, true)
      else ((id, filtered) :: restRes.1,
        (filtered.length ≠ tr.length : Bool) || restRes.2)

/-- One step of the role-loading loop of `load_state`: skip dropped ids and
empty values, keep a role only when its recorded source is `explicit` or
`override`, storing the stripped value. -/
def load_role_step (dropped : List String) (sources1 : Dict String)
    (acc : Dict String) (kv : String × String) : Dict String :=
  if kv.1 ∈ dropped then acc
  else
    if strTrim kv.2 = "" then acc
    else
      match dget sources1 kv.1 with
      | some src =>
          if src = "explicit" ∨ src = "override" then dset acc kv.1 (strTrim kv.2) else acc
      | none => acc

/-- The final pass of `load_state` over the surviving device states: fill a
missing name from the name map and overwrite the role from the role map. -/
def apply_names_roles (names roles : Dict String) (device_id : String)
    (ds : DeviceState) : DeviceState :=
  let ds1 := if ¬ tstr ds.name ∧ dmem names device_id
    then { ds with name := dget names device_id } else ds
  { ds1 with role := match dget roles device_id with
    | some r => if r ≠ "" then some r else none
    | none => none }

/-- The ids of devices dropped on load (zero coordinates or out of radius). -/
def load_dropped (cfg : Config) (data : SavedState) : List String :=
  (data.devices.filter (fun kv => ¬ load_device_ok cfg kv.2)).map Prod.fst

/-- The surviving device entries. -/
def load_devices_kept (cfg : Config) (data : SavedState) : Dict DeviceState :=
  data.devices.filter (fun kv => load_device_ok cfg kv.2)

/-- Cleaned trails together with the dirty flag, after the `TRAIL_LEN <= 0`
wipe. -/
def load_trails_pair (cfg : Config) (data : SavedState) :
    Dict (List TrailEntry) × Bool :=
  let ct := clean_trails cfg data.trails
  if cfg.trailLen ≤ 0 ∧ ¬ ct.1.isEmpty then ([], true) else ct

/-- Trails after removing entries of dropped devices. -/
def load_trails (cfg : Config) (data : SavedState) : Dict (List TrailEntry) :=
  (load_dropped cfg data).foldl (fun acc i => derase acc i) (load_trails_pair cfg data).1

/-- Seen-map after removing dropped devices. -/
def load_seen (cfg : Config) (data : SavedState) : Dict ℚ :=
  (load_dropped cfg data).foldl (fun acc i => derase acc i) data.seen_devices

/-- Names with blank values filtered out and dropped ids removed. -/
def load_names (cfg : Config) (data : SavedState) : Dict String :=
  (load_dropped cfg data).foldl (fun acc i => derase acc i)
    (data.device_names.filter (fun kv => strTrim kv.2 ≠ ""))

/-- Role sources with blank values filtered out and dropped ids removed. -/
def load_sources1 (cfg : Config) (data : SavedState) : Dict String :=
  (load_dropped cfg data).foldl (fun acc i => derase acc i)
    (data.device_role_sources.filter (fun kv => strTrim kv.2 ≠ ""))

/-- Roles kept by the source-gated loading loop. -/
def load_roles0 (cfg : Config) (data : SavedState) : Dict String :=
  data.device_roles.foldl
    (load_role_step (load_dropped cfg data) (load_sources1 cfg data)) []

/-- Roles after the role-overrides file is applied. -/
def load_roles_overridden (cfg : Config) (data : SavedState) : Dict String :=
  if cfg.roleOverrides.isEmpty then load_roles0 cfg data
  else cfg.roleOverrides.foldl (fun acc kv => dset acc kv.1 kv.2) (load_roles0 cfg data)

/-- Role sources after the role-overrides file is applied. -/
def load_sources_final (cfg : Config) (data : SavedState) : Dict String :=
  if cfg.roleOverrides.isEmpty then load_sources1 cfg data
  else cfg.roleOverrides.foldl (fun acc kv => dset acc kv.1 "override")
    (load_sources1 cfg data)

/-- Roles after overrides with dropped ids removed again. -/
def load_roles_final (cfg : Config) (data : SavedState) : Dict String :=
  (load_dropped cfg data).foldl (fun acc i => derase acc i)
    (load_roles_overridden cfg data)

/-- The dirty flag `load_state` leaves behind. -/
def load_dirty (cfg : Config) (data : SavedState) : Bool :=
  (load_trails_pair cfg data).2 || ¬ (load_dropped cfg data).isEmpty

/-- `load_state` applied to a parsed snapshot document, assembled from the
sequential passes of the source. -/
def load_state (cfg : Config) (data : SavedState) : LoadedMaps :=
  { devices := (load_devices_kept cfg data).map (fun kv =>
      (kv.1, apply_names_roles (load_names cfg data) (load_roles_final cfg data) kv.1 kv.2))
    trails := load_trails cfg data
    seen_devices := load_seen cfg data
    device_names := load_names cfg data
    device_roles := load_roles_final cfg data
    device_role_sources := load_sources_final cfg data
    nodeMaps := rebuild_node_hash_map (load_devices_kept cfg data)
    state_dirty := load_dirty cfg data }

/-! ### Shared fixtures and helper lemmas -/

/-- A baseline configuration used by concrete evaluations (radius disabled,
trails and history enabled). -/
def cfgBase : Config :=
  { routePathMaxLen := 8, mapRadiusKm := 0, haversineOk := fun _ _ => true
    routeTtlSeconds := 120, trailLen := 50, heatTtlSeconds := 900
    routePayloadTypes := [3, 4, 5], historyEnabled := true, historyHours := 24
    historyPayloadTypes := [], historyAllowedModes := [], historyMaxSegments := 0
    historySampleLimit := 5, directCoordsAllowZero := false
    directCoordsMode := "off", topicRe := none, deviceTtlSeconds := 3600
    roleOverrides := [] }

theorem dget_none_of_not_mem (d : Dict α) (key : String) (h : dmem d key = false) :
    dget d key = none := by
  unfold dmem at h
  cases hd : dget d key with
  | none => rfl
  | some v => rw [hd] at h; simp at h

theorem derase_eq_self_of_not_mem (d : Dict α) (key : String)
    (h : dmem d key = false) : derase d key = d := by
  have hg := dget_none_of_not_mem d key h
  induction d with
  | nil => rfl
  | cons kv rest ih =>
      obtain ⟨k, v⟩ := kv
      by_cases hk : k = key
      · subst hk
        simp [dget] at hg
      · simp [dget, hk] at hg
        have hmem : dmem rest key = false := by
          unfold dmem
          rw [hg]
          rfl
        simp [derase, List.filter, hk]
        have := ih hmem hg
        simpa [derase] using this

/-! ### C10 -/

/-- C10: calling `evict_device` with a device-id absent from the devices map
returns `False`, leaves the devices map, the dirty flag and the hash→device
maps unchanged, and still removes the id's entries from the trails, seen,
broker-seen and last-broadcast maps. -/
theorem evict_device_missing_id (st : AppState) (device_id : String)
    (h : dmem st.devices device_id = false) :
    (evict_device st device_id).1 = false ∧
    (evict_device st device_id).2.devices = st.devices ∧
    (evict_device st device_id).2.state_dirty = st.state_dirty ∧
    (evict_device st device_id).2.nodeMaps = st.nodeMaps ∧
    (evict_device st device_id).2.trails = derase st.trails device_id ∧
    (evict_device st device_id).2.seen_devices = derase st.seen_devices device_id ∧
    (evict_device st device_id).2.mqtt_seen = derase st.mqtt_seen device_id ∧
    (evict_device st device_id).2.last_seen_broadcast =
      derase st.last_seen_broadcast device_id := by
  unfold evict_device
  rw [h, derase_eq_self_of_not_mem st.devices device_id h]
  simp

/-- Concrete instantiation of `evict_device_missing_id`. -/
def stateC10 : AppState :=
  { emptyAppState with
      trails := [("X1", [(1, 2, 3)])]
      seen_devices := [("X1", 7)]
      mqtt_seen := [("X1", 8)]
      last_seen_broadcast := [("X1", 9)] }

/-- C10 witness: the theorem applied at a concrete state whose devices map
does not contain the evicted id. -/
theorem evict_device_missing_id_witness :
    (evict_device stateC10 "X1").1 = false ∧
    (evict_device stateC10 "X1").2.devices = stateC10.devices ∧
    (evict_device stateC10 "X1").2.state_dirty = stateC10.state_dirty ∧
    (evict_device stateC10 "X1").2.nodeMaps = stateC10.nodeMaps ∧
    (evict_device stateC10 "X1").2.trails = derase stateC10.trails "X1" ∧
    (evict_device stateC10 "X1").2.seen_devices = derase stateC10.seen_devices "X1" ∧
    (evict_device stateC10 "X1").2.mqtt_seen = derase stateC10.mqtt_seen "X1" ∧
    (evict_device stateC10 "X1").2.last_seen_broadcast =
      derase stateC10.last_seen_broadcast "X1" :=
  evict_device_missing_id stateC10 "X1" (by decide)

/-! ### C1 -/

/-- The configuration of the C1 failing input: `ROUTE_PATH_MAX_LEN = 1`. -/
def cfgC1 : Config := { cfgBase with routePathMaxLen := 1 }

/-- The C1 failing input: a path route event whose two normalized hashes
exceed the configured max path length. -/
def eventC1 : RouteEvent :=
  { path_hashes := some [.s "AB", .s "CD"], payload_type := some 3
    message_hash := some "H1", origin_id := some "O1", receiver_id := some "R1"
    ts := some 50, topic := some "meshcore/x/R1/packets" }

/-- C1: on an over-long normalized hash list the resolver takes the
rejection branch and returns the 2-tuple `(None, [])`; the broadcaster's
three-way unpacking of that value raises `ValueError`, killing the
broadcaster coroutine instead of continuing with the next queued event. -/
theorem route_path_overflow_crashes_broadcaster :
    route_points_from_hashes cfgC1 (rebuild_node_hash_map []) []
      [.s "AB", .s "CD"] (some "O1") (some "R1") 50 = .pair none [] ∧
    broadcaster_route_step cfgC1 emptyAppState eventC1 100 =
      .error .unpackValueError := by
  constructor
  · decide
  · decide

/-! ### C4 -/

/-- The C4 configuration: strict mode with a topic regex that matches only
the literal topic string "match/me". -/
def cfgC4 : Config :=
  { cfgBase with directCoordsMode := "strict"
                 topicRe := some (fun t => t = "match/me") }

/-- A payload whose enclosing JSON carries a `gps` location hint. -/
def objC4 : Json := .obj [("gps", .num 1), ("lat", .num 37), ("lon", .num 10)]

/-- C4 counterexample: in strict mode, a topic that fails the regex is
accepted anyway because the payload has a location-hint key: the two
conditions are disjunctive in the code, not conjunctive as claimed, and no
`direct_blocked` result is produced. -/
theorem strict_mode_topic_mismatch_accepted :
    direct_coords_allowed cfgC4 "other/topic" (some objC4) = true ∧
    direct_json_decision cfgC4 "other/topic" objC4 (37, 10) = .accepted := by
  constructor
  · decide
  · decide

/-- C4 (amended): in strict mode a directly-found coordinate pair is
accepted iff the topic matches the configured regex OR the enclosing JSON
has a location-hint key; when neither holds the result is `direct_blocked`
(unless blocked, a zero pair yields `direct_zero_coords`, else acceptance). -/
theorem strict_mode_allowed_iff (cfg : Config) (topic : String) (obj : Json)
    (found : Point) (hmode : cfg.directCoordsMode = "strict") :
    direct_coords_allowed cfg topic (some obj) =
      ((match cfg.topicRe with | some re => re topic | none => false) ||
        has_location_hints obj) ∧
    (direct_json_decision cfg topic obj found = .blocked ↔
      (match cfg.topicRe with | some re => re topic | none => false) = false ∧
        has_location_hints obj = false) := by
  have hoff : cfg.directCoordsMode ≠ "off" := by rw [hmode]; decide
  have hany : cfg.directCoordsMode ≠ "any" := by rw [hmode]; decide
  have htopic : cfg.directCoordsMode ≠ "topic" := by rw [hmode]; decide
  have hallowed : direct_coords_allowed cfg topic (some obj) =
      ((match cfg.topicRe with | some re => re topic | none => false) ||
        has_location_hints obj) := by
    unfold direct_coords_allowed
    rw [if_neg hoff, if_neg hany, if_pos (Or.inr hmode)]
    cases hre : (match cfg.topicRe with | some re => re topic | none => false) with
    | true => simp
    | false => simp [htopic]
  have hblocked : direct_json_decision cfg topic obj found = .blocked ↔
      direct_coords_allowed cfg topic (some obj) = false := by
    unfold direct_json_decision
    cases hA : direct_coords_allowed cfg topic (some obj) with
    | false => simp [hA]
    | true =>
        simp only [hA]
        constructor
        · intro hcontra
          rw [if_neg (by simp)] at hcontra
          split at hcontra <;> simp at hcontra
        · intro hcontra
          simp at hcontra
  refine ⟨hallowed, ?_⟩
  rw [hblocked, hallowed]
  simp [Bool.or_eq_false_iff]

/-- C4 witness: the amended theorem applied in strict mode at a topic that
matches the regex while the payload has no hint key (accepted, not blocked). -/
theorem strict_mode_allowed_iff_witness :
    direct_coords_allowed cfgC4 "match/me" (some (.obj [("lat", .num 37)])) =
      ((match cfgC4.topicRe with | some re => re "match/me" | none => false) ||
        has_location_hints (.obj [("lat", .num 37)])) ∧
    (direct_json_decision cfgC4 "match/me" (.obj [("lat", .num 37)]) (37, 10) = .blocked ↔
      (match cfgC4.topicRe with | some re => re "match/me" | none => false) = false ∧
        has_location_hints (.obj [("lat", .num 37)]) = false) :=
  strict_mode_allowed_iff cfgC4 "match/me" (.obj [("lat", .num 37)]) (37, 10) rfl

/-! ### C9 -/

/-- Route TTL of one second for the C9 scenario. -/
def cfgC9 : Config := { cfgBase with routeTtlSeconds := 1 }

/-- Two known devices acting as origin and receiver. -/
def devicesC9 : Dict DeviceState :=
  [("OA1", { device_id := "OA1", lat := 1, lon := 2, ts := 90 }),
   ("RB1", { device_id := "RB1", lat := 3, lon := 4, ts := 91 })]

def stateC9 : AppState :=
  { emptyAppState with devices := devicesC9
                       nodeMaps := rebuild_node_hash_map devicesC9 }

/-- A fanout route event received at ts 95. -/
def eventC9 : RouteEvent :=
  { route_mode := some "fanout", route_id := some "H1-RB1"
    origin_id := some "OA1", receiver_id := some "RB1"
    message_hash := some "H1", ts := some 95
    topic := some "meshcore/x/RB1/packets" }

/-- The state after the broadcaster applied the C9 route event. -/
def stateC9post : AppState :=
  match broadcaster_route_step cfgC9 stateC9 eventC9 95 with
  | .ok (s, _) => s
  | .error _ => stateC9

/-- C9 counterexample: the websocket snapshot code sends every value of the
routes map with no expiry filter, so a snapshot built at time 96 contains a
route whose `expires_at` is exactly 96 — not strictly greater than the build
time — even though a reaper sweep at 96 would have kept it too. -/
theorem snapshot_contains_expired_route :
    (broadcaster_route_step cfgC9 stateC9 eventC9 95).isOk = true ∧
    (reaper_sweep_routes stateC9post.routes 96).1 = stateC9post.routes ∧
    ∃ r ∈ snapshot_routes stateC9post, ¬ r.expires_at > 96 := by
  refine ⟨by decide, by decide, ?_⟩
  refine ⟨{ id := "H1-RB1", points := [(1, 2), (3, 4)], hashes := []
            point_ids := [some "OA1", some "RB1"], route_mode := "fanout"
            ts := 95, expires_at := 96, origin_id := some "OA1"
            receiver_id := some "RB1", message_hash := some "H1"
            topic := some "meshcore/x/RB1/packets" }, by decide, by decide⟩

/-- C9 (amended): the snapshot builder applies no expiry filter of its own —
it lists every route in the routes map; only the reaper removes expired
routes (strict `now > expires_at`), so any snapshot taken right after a
sweep at time `now` contains only routes with `expires_at ≥ now`, while
between sweeps expired routes do appear. -/
theorem snapshot_after_sweep_not_expired (st : AppState) (now : ℚ) (r : Route)
    (h : r ∈ snapshot_routes { st with routes := (reaper_sweep_routes st.routes now).1 }) :
    r.expires_at ≥ now := by
  unfold snapshot_routes at h
  obtain ⟨kv, hkv, hr⟩ := List.mem_map.mp h
  unfold reaper_sweep_routes at hkv
  simp only at hkv
  have h2 := (List.mem_filter.mp hkv).2
  rw [hr] at h2
  simpa using h2

/-- C9 witness: the amended theorem applied to a concrete swept state. -/
theorem snapshot_after_sweep_not_expired_witness :
    ({ id := "r1", points := [(1, 2), (3, 4)], hashes := [], point_ids := []
       route_mode := "direct", ts := 95, expires_at := 96 } : Route).expires_at ≥ 96 :=
  snapshot_after_sweep_not_expired
    { emptyAppState with routes :=
        [("r1", { id := "r1", points := [(1, 2), (3, 4)], hashes := [], point_ids := []
                  route_mode := "direct", ts := 95, expires_at := 96 })] }
    96 _ (by decide)

/-! ### C3 -/

/-- C3 counterexample: a message that *does* yield path hashes (decoded
`pathHashes = ["AB"]`) but whose payload type 99 is outside the
route-payload-type set still produces a fanout route event, contradicting
the claim that fanout requires the message to yield no path-hashes. -/
theorem fanout_despite_path_hashes :
    route_hashes_of
      { path_hashes := some [.s "AB"], payload_type := some 99
        message_hash := some "H1", route_origin_id := some "T1"
        receiver_id := some "R1", direction_value := "rx"
        topic := "meshcore/x/R1/packets" } = some [.s "AB"] ∧
    emit_route_events cfgBase
      { path_hashes := some [.s "AB"], payload_type := some 99
        message_hash := some "H1", route_origin_id := some "T1"
        receiver_id := some "R1", direction_value := "rx"
        topic := "meshcore/x/R1/packets" } 0 = [.fanout "H1-R1"] := by
  constructor
  · decide
  · decide

/-- C3 (amended): a fanout route event is enqueued iff the *path branch did
not fire* — i.e. it is not the case that the message yields path-hashes with
a payload type in the route set — and the message-hash, resolved origin-id
and receiver-id are all known, the direction is rx, and the topic ends with
`/packets`.  (With path-hashes present but a payload type outside the set,
fanout still fires.) -/
theorem fanout_emitted_iff (cfg : Config) (inp : RouteEmitInputs) (now : ℚ) :
    (∃ rid, EmittedRoute.fanout rid ∈ emit_route_events cfg inp now) ↔
    (¬ (tlist (route_hashes_of inp) = true ∧
        (match inp.payload_type with
         | some pt => cfg.routePayloadTypes.contains pt
         | none => false) = true) ∧
      tstr inp.message_hash = true ∧ tstr inp.route_origin_id = true ∧
      tstr inp.receiver_id = true ∧ inp.direction_value = "rx" ∧
      strEndsWith inp.topic "/packets" = true) := by
  unfold emit_route_events
  simp only
  by_cases c1 : (tlist (route_hashes_of inp) = true ∧
      (match inp.payload_type with
       | some pt => cfg.routePayloadTypes.contains pt
       | none => false) = true)
  · rw [if_pos c1]
    constructor
    · rintro ⟨rid, hrid⟩
      rw [if_neg (by simp)] at hrid
      simp at hrid
    · rintro ⟨hc, _⟩
      exact absurd c1 hc
  · rw [if_neg c1]
    by_cases c2 : (tstr inp.message_hash = true ∧ tstr inp.route_origin_id = true ∧
        tstr inp.receiver_id = true)
    · rw [if_pos c2]
      by_cases c3 : (inp.direction_value = "rx" ∧ strEndsWith inp.topic "/packets" = true)
      · rw [if_pos c3]
        rw [if_neg (by simp)]
        constructor
        · intro _
          exact ⟨c1, c2.1, c2.2.1, c2.2.2, c3.1, c3.2⟩
        · intro _
          exact ⟨_, List.mem_singleton.mpr rfl⟩
      · rw [if_neg c3]
        constructor
        · rintro ⟨rid, hrid⟩
          split at hrid <;> simp at hrid
        · rintro ⟨_, _, _, _, h5, h6⟩
          exact absurd ⟨h5, h6⟩ c3
    · rw [if_neg c2]
      constructor
      · rintro ⟨rid, hrid⟩
        split at hrid <;> simp at hrid
      · rintro ⟨_, h2, h3, h4, _, _⟩
        exact absurd ⟨h2, h3, h4⟩ c2

/-- C3 witness: the amended iff applied to a genuine fanout input (no
path-hashes, everything known, rx, `/packets` topic). -/
theorem fanout_emitted_iff_witness :
    (∃ rid, EmittedRoute.fanout rid ∈ emit_route_events cfgBase
      { message_hash := some "H2", route_origin_id := some "T2"
        receiver_id := some "R2", direction_value := "rx"
        topic := "meshcore/x/R2/packets" } 5) :=
  (fanout_emitted_iff cfgBase
    { message_hash := some "H2", route_origin_id := some "T2"
      receiver_id := some "R2", direction_value := "rx"
      topic := "meshcore/x/R2/packets" } 5).mpr (by decide)

/-! ### C2 -/

theorem dget_eq_none_iff (d : Dict α) (key : String) :
    dget d key = none ↔ key ∉ dkeys d := by
  induction d with
  | nil => simp [dkeys]
  | cons kv rest ih =>
      obtain ⟨k, v⟩ := kv
      by_cases h : k = key
      · subst h
        simp [dkeys]
      · rw [dget_cons, if_neg h, ih]
        constructor
        · intro hnot
          simp only [dkeys, List.map_cons, List.mem_cons]
          rintro (heq | hmem)
          · exact h heq.symm
          · exact hnot hmem
        · intro hnot
          simp only [dkeys, List.map_cons, List.mem_cons] at hnot
          intro hmem
          exact hnot (Or.inr hmem)

theorem dkeys_dset (d : Dict α) (k : String) (v : α) :
    dkeys (dset d k v) = if dmem d k then dkeys d else dkeys d ++ [k] := by
  induction d with
  | nil => simp [dset, dkeys, dmem, dget]
  | cons kv rest ih =>
      obtain ⟨k', w⟩ := kv
      by_cases h : k' = k
      · subst h
        simp [dset, dkeys, dmem, dget]
      · have hmem : dmem ((k', w) :: rest) k = dmem rest k := by
          simp [dmem, dget, h]
        have hset : dset ((k', w) :: rest) k v = (k', w) :: dset rest k v := by
          simp [dset, h]
        rw [hset, hmem,
          show dkeys ((k', w) :: dset rest k v) = k' :: dkeys (dset rest k v) from rfl,
          ih]
        by_cases hm : dmem rest k = true
        · rw [if_pos hm, if_pos hm]
          rfl
        · rw [if_neg hm, if_neg hm]
          rfl

theorem dkeys_dappendList (d : Dict (List String)) (k v : String) :
    dkeys (dappendList d k v) = if dmem d k then dkeys d else dkeys d ++ [k] := by
  unfold dappendList
  cases hg : dget d k with
  | none =>
      have : dmem d k = false := by simp [dmem, hg]
      simp [this, dkeys]
  | some l =>
      have hm : dmem d k = true := by simp [dmem, hg]
      rw [dkeys_dset, if_pos hm]

theorem nodup_dkeys_dappendList (d : Dict (List String)) (k v : String)
    (h : (dkeys d).Nodup) : (dkeys (dappendList d k v)).Nodup := by
  rw [dkeys_dappendList]
  by_cases hm : dmem d k
  · simpa [hm] using h
  · have hnotin : k ∉ dkeys d := by
      rw [← dget_eq_none_iff]
      unfold dmem at hm
      cases hg : dget d k with
      | none => rfl
      | some l => rw [hg] at hm; simp at hm
    simp [hm, List.nodup_append, h, hnotin]

/-- The candidate-grouping fold of `_rebuild_node_hash_map` keeps its keys
free of duplicates. -/
theorem candidates_keys_nodup (l : List (String × DeviceState))
    (acc : Dict (List String)) (h : (dkeys acc).Nodup) :
    (dkeys (l.foldl (fun acc kv =>
      match node_hash_from_device_id kv.1 with
      | none => acc
      | some hh => if hh = "" then acc else dappendList acc hh kv.1) acc)).Nodup := by
  induction l generalizing acc with
  | nil => simpa using h
  | cons kv rest ih =>
      simp only [List.foldl_cons]
      cases hn : node_hash_from_device_id kv.1 with
      | none => exact ih acc h
      | some hh =>
          by_cases he : hh = ""
          · simp only [he, if_pos rfl]
            exact ih acc h
          · simp only [if_neg he]
            exact ih _ (nodup_dkeys_dappendList acc hh kv.1 h)

theorem dget_append (d1 d2 : Dict α) (key : String) :
    dget (d1 ++ d2) key =
      match dget d1 key with
      | some v => some v
      | none => dget d2 key := by
  induction d1 with
  | nil => simp
  | cons kv rest ih =>
      obtain ⟨k, v⟩ := kv
      by_cases h : k = key <;> simp [dget, h, ih]

/-- The mapping/collision fold of `_rebuild_node_hash_map`, characterized as
two independent `filterMap`s of the candidate groups. -/
theorem mapping_collisions_spec (cand : Dict (List String))
    (acc : Dict String × List String) :
    (cand.foldl (fun (acc : Dict String × List String) kv =>
        match kv.2 with
        | [only] => (acc.1 ++ [(kv.1, only)], acc.2)
        | _ => (acc.1, acc.2 ++ [kv.1])) acc) =
      (acc.1 ++ cand.filterMap (fun kv =>
          match kv.2 with
          | [only] => some (kv.1, only)
          | _ => none),
       acc.2 ++ cand.filterMap (fun kv =>
          match kv.2 with
          | [_] => none
          | _ => some kv.1)) := by
  induction cand generalizing acc with
  | nil => simp
  | cons kv rest ih =>
      obtain ⟨k, ids⟩ := kv
      match ids with
      | [] => simp [List.filterMap_cons, ih]
      | [only] => simp [List.filterMap_cons, ih]
      | x :: y :: more => simp [List.filterMap_cons, ih]

theorem mem_of_dget (d : Dict α) (key : String) (v : α) (h : dget d key = some v) :
    (key, v) ∈ d := by
  induction d with
  | nil => simp [dget] at h
  | cons kv rest ih =>
      obtain ⟨k, w⟩ := kv
      by_cases hk : k = key
      · subst hk
        simp [dget] at h
        simp [h]
      · simp [dget, hk] at h
        simp [ih h]

theorem dget_of_mem_nodup (d : Dict α) (key : String) (v : α)
    (hnd : (dkeys d).Nodup) (hm : (key, v) ∈ d) : dget d key = some v := by
  induction d with
  | nil => simp at hm
  | cons kv rest ih =>
      obtain ⟨k, w⟩ := kv
      rcases List.mem_cons.mp hm with heq | htail
      · obtain ⟨h1, h2⟩ := Prod.mk.injEq .. ▸ heq
        simp [dget, h1.symm, h2]
      · by_cases hk : k = key
        · subst hk
          exfalso
          have : k ∈ dkeys rest := List.mem_map.mpr ⟨(k, v), htail, rfl⟩
          exact (List.nodup_cons.mp hnd).1 this
        · simp [dget, hk]
          exact ih (List.nodup_cons.mp hnd).2 htail

/-- C2 (amended): a collided hash is never resolved by the topology
resolver: `_rebuild_node_hash_map` publishes no mapping for a hash it marks
collided, and `_route_points_from_hashes`' resolution loop skips any hash
without a published mapping, so no point is contributed at that hash's
position.  (`_choose_device_for_hash`, which implements the closest-last-seen
disambiguation the claim describes, is never invoked by the resolver.) -/
theorem collided_hash_skipped (devices : Dict DeviceState) (h : String)
    (rest : List String) (pts : List Point) (used : List String)
    (ids : List (Option String))
    (hcol : h ∈ (rebuild_node_hash_map devices).collisions) :
    dget (rebuild_node_hash_map devices).mapping h = none ∧
    resolveLoop (rebuild_node_hash_map devices).mapping devices (h :: rest) pts used ids =
      resolveLoop (rebuild_node_hash_map devices).mapping devices rest pts used ids := by
  have hmap : dget (rebuild_node_hash_map devices).mapping h = none := by
    unfold rebuild_node_hash_map at hcol ⊢
    simp only [mapping_collisions_spec] at hcol ⊢
    set cand := devices.foldl (fun acc kv =>
      match node_hash_from_device_id kv.1 with
      | none => acc
      | some hh => if hh = "" then acc else dappendList acc hh kv.1) [] with hcand
    have hnodup : (dkeys cand).Nodup := candidates_keys_nodup devices [] (by simp [dkeys])
    simp only [List.nil_append] at hcol ⊢
    obtain ⟨⟨k, ids'⟩, hmem, hids⟩ := List.mem_filterMap.mp hcol
    cases hd : dget (cand.filterMap (fun kv =>
        match kv.2 with
        | [only] => some (kv.1, only)
        | _ => none)) h with
    | none => rfl
    | some v =>
        exfalso
        have hmem2 := mem_of_dget _ _ _ hd
        obtain ⟨⟨k2, ids2⟩, hmem3, hpair⟩ := List.mem_filterMap.mp hmem2
        cases ids2 with
        | nil => simp at hpair
        | cons x t =>
            cases t with
            | cons y m => simp at hpair
            | nil =>
                simp only [Option.some.injEq, Prod.mk.injEq] at hpair
                obtain ⟨hk2, hv⟩ := hpair
                rw [hk2] at hmem3
                cases ids' with
                | nil =>
                    simp only [Option.some.injEq] at hids
                    rw [hids] at hmem
                    have e1 := dget_of_mem_nodup cand h ([] : List String) hnodup hmem
                    have e2 := dget_of_mem_nodup cand h [x] hnodup hmem3
                    rw [e1] at e2
                    simp at e2
                | cons z t' =>
                    cases t' with
                    | nil => simp at hids
                    | cons w m' =>
                        simp only [Option.some.injEq] at hids
                        rw [hids] at hmem
                        have e1 := dget_of_mem_nodup cand h (z :: w :: m') hnodup hmem
                        have e2 := dget_of_mem_nodup cand h [x] hnodup hmem3
                        rw [e1] at e2
                        simp at e2
  exact ⟨hmap, by rw [resolveLoop, hmap]⟩

/-- Devices for the C2 scenario: two devices share the node-hash prefix
"AB"; the origin and receiver prefixes are not valid hex, so they produce no
candidate groups. -/
def devicesC2 : Dict DeviceState :=
  [("AB1", { device_id := "AB1", lat := 5, lon := 6, ts := 10 }),
   ("AB2", { device_id := "AB2", lat := 7, lon := 8, ts := 20 }),
   ("OR1", { device_id := "OR1", lat := 1, lon := 2, ts := 30 }),
   ("RC1", { device_id := "RC1", lat := 3, lon := 4, ts := 40 })]

def seenC2 : Dict ℚ := [("AB1", 0), ("AB2", 100)]

def mapsC2 : NodeHashMaps := rebuild_node_hash_map devicesC2

/-- C2 counterexample: "AB" is a collided hash with candidate "AB2" closest
to the packet ts (the chooser would return it), yet the resolver's polyline
for path-hash list ["AB"] contains only the origin and receiver points —
the chosen candidate's coordinates (7, 8) appear nowhere. -/
theorem collided_hash_counterexample :
    "AB" ∈ mapsC2.collisions ∧
    choose_device_for_hash mapsC2 devicesC2 seenC2 "AB" 100 = some "AB2" ∧
    route_points_from_hashes cfgBase mapsC2 devicesC2 [.s "AB"]
      (some "OR1") (some "RC1") 100 =
      .triple (some [(1, 2), (3, 4)]) [] [some "OR1", some "RC1"] ∧
    ((7 : ℚ), (8 : ℚ)) ∉ [((1 : ℚ), (2 : ℚ)), ((3 : ℚ), (4 : ℚ))] := by
  refine ⟨by decide, by decide, by decide, by decide⟩

/-- C2 witness: the amended theorem applied at the concrete collided state. -/
theorem collided_hash_skipped_witness :
    dget (rebuild_node_hash_map devicesC2).mapping "AB" = none ∧
    resolveLoop (rebuild_node_hash_map devicesC2).mapping devicesC2
      ["AB"] [] [] [] =
      resolveLoop (rebuild_node_hash_map devicesC2).mapping devicesC2
        [] [] [] [] :=
  collided_hash_skipped devicesC2 "AB" [] [] [] [] (by decide)

/-! ### C7 -/

/-- The directed neighbor entry for `(src, dst)`, defaulting to the fresh
entry `_touch_neighbor` would create. -/
def nbEntry (edges : Dict (Dict NeighborEntry)) (src dst : String) : NeighborEntry :=
  (dget ((dget edges src).getD []) dst).getD { count := 0, last_seen := 0, manual := false }

theorem nbEntry_touch_self (edges : Dict (Dict NeighborEntry)) (src dst : String)
    (ts : ℚ) (hs : src ≠ "") (hd : dst ≠ "") (hne : src ≠ dst) :
    nbEntry (touch_neighbor edges src dst ts false) src dst =
      { count := (nbEntry edges src dst).count + 1
        last_seen := max (nbEntry edges src dst).last_seen ts
        manual := (nbEntry edges src dst).manual } := by
  unfold touch_neighbor nbEntry
  rw [if_neg (by simp [hs, hd, hne])]
  simp [dget_dset]

theorem nbEntry_touch_other (edges : Dict (Dict NeighborEntry)) (src dst s d : String)
    (ts : ℚ) (manual : Bool) (hne : (src, dst) ≠ (s, d)) :
    nbEntry (touch_neighbor edges src dst ts manual) s d = nbEntry edges s d := by
  unfold touch_neighbor
  by_cases hskip : (src = "" ∨ dst = "" ∨ src = dst)
  · rw [if_pos hskip]
  · rw [if_neg hskip]
    unfold nbEntry
    simp only [dget_dset]
    by_cases h1 : src = s
    · subst h1
      rw [if_pos rfl]
      have h2 : dst ≠ d := fun h => hne (by rw [h])
      simp only [Option.getD_some, dget_dset, if_neg h2]
    · rw [if_neg h1]

/-- A non-manual touch never decreases a count, never lowers a last-seen,
and never changes a manual flag. -/
theorem nbEntry_touch_mono (edges : Dict (Dict NeighborEntry)) (src dst s d : String)
    (ts : ℚ) :
    (nbEntry edges s d).count ≤ (nbEntry (touch_neighbor edges src dst ts false) s d).count ∧
    (nbEntry edges s d).last_seen ≤
      (nbEntry (touch_neighbor edges src dst ts false) s d).last_seen ∧
    (nbEntry (touch_neighbor edges src dst ts false) s d).manual =
      (nbEntry edges s d).manual := by
  by_cases h : (src, dst) = (s, d)
  · obtain ⟨h1, h2⟩ := Prod.mk.injEq .. ▸ h
    subst h1; subst h2
    by_cases hskip : (src = "" ∨ dst = "" ∨ src = dst)
    · unfold touch_neighbor
      rw [if_pos hskip]
      exact ⟨le_refl _, le_refl _, rfl⟩
    · push_neg at hskip
      rw [nbEntry_touch_self edges src dst ts hskip.1 hskip.2.1 hskip.2.2]
      refine ⟨by simp, le_max_left _ _, rfl⟩
  · rw [nbEntry_touch_other edges src dst s d ts false h]
    exact ⟨le_refl _, le_refl _, rfl⟩

/-- The recording loop only ever applies non-manual touches, so counts and
last-seens are monotone and manual flags are untouched. -/
theorem record_neighbors_loop_mono (ts : ℚ) (ids : List (Option String))
    (edges : Dict (Dict NeighborEntry)) (s d : String) :
    (nbEntry edges s d).count ≤ (nbEntry (record_neighbors_loop ts ids edges) s d).count ∧
    (nbEntry edges s d).last_seen ≤
      (nbEntry (record_neighbors_loop ts ids edges) s d).last_seen ∧
    (nbEntry (record_neighbors_loop ts ids edges) s d).manual =
      (nbEntry edges s d).manual := by
  induction ids generalizing edges with
  | nil => exact ⟨le_refl _, le_refl _, rfl⟩
  | cons src rest ih =>
      cases rest with
      | nil => exact ⟨le_refl _, le_refl _, rfl⟩
      | cons dst rest' =>
          rw [record_neighbors_loop]
          by_cases hskip : (¬ tstr src = true ∨ ¬ tstr dst = true ∨ src = dst)
          · rw [if_pos hskip]
            exact ih _
          · rw [if_neg hskip]
            have m1 := nbEntry_touch_mono edges (src.getD "") (dst.getD "") s d ts
            have m2 := nbEntry_touch_mono
              (touch_neighbor edges (src.getD "") (dst.getD "") ts false)
              (dst.getD "") (src.getD "") s d ts
            have m3 := ih (touch_neighbor
              (touch_neighbor edges (src.getD "") (dst.getD "") ts false)
              (dst.getD "") (src.getD "") ts false)
            refine ⟨le_trans m1.1 (le_trans m2.1 m3.1),
              le_trans m1.2.1 (le_trans m2.2.1 m3.2.1), ?_⟩
            rw [m3.2.2, m2.2.2, m1.2.2]

/-- Any adjacent pair of distinct, non-null ids passed to the recording loop
gets both directed counts incremented, its last-seen bumped to at least the
route ts, and its manual flag left unchanged. -/
theorem record_neighbors_loop_adjacent (ts : ℚ) (i : ℕ) (ids : List (Option String))
    (edges : Dict (Dict NeighborEntry)) (s d : String)
    (hi : ids.get? i = some (some s)) (hj : ids.get? (i + 1) = some (some d))
    (hs : s ≠ "") (hd : d ≠ "") (hne : s ≠ d) :
    (nbEntry (record_neighbors_loop ts ids edges) s d).count ≥
      (nbEntry edges s d).count + 1 ∧
    (nbEntry (record_neighbors_loop ts ids edges) d s).count ≥
      (nbEntry edges d s).count + 1 ∧
    (nbEntry (record_neighbors_loop ts ids edges) s d).last_seen ≥ ts ∧
    (nbEntry (record_neighbors_loop ts ids edges) s d).manual =
      (nbEntry edges s d).manual := by
  induction i generalizing ids edges with
  | zero =>
      match ids, hi, hj with
      | x :: y :: rest, hi, hj =>
          simp only [List.get?] at hi hj
          obtain rfl : x = some s := by simpa using hi
          obtain rfl : y = some d := by simpa using hj
          rw [record_neighbors_loop]
          have hcond : ¬ (¬ tstr (some s) = true ∨ ¬ tstr (some d) = true ∨
              (some s : Option String) = some d) := by
            simp [tstr, hs, hd, hne]
          rw [if_neg hcond]
          simp only [Option.getD_some]
          have hdsne : ((d : String), s) ≠ (s, d) := fun hpair =>
            hne (congrArg Prod.fst hpair).symm
          have hsdne : ((s : String), d) ≠ (d, s) := fun hpair =>
            hne (congrArg Prod.fst hpair)
          set e1 := touch_neighbor edges s d ts false with he1
          set e2 := touch_neighbor e1 d s ts false with he2
          have hsd1 := nbEntry_touch_self edges s d ts hs hd hne
          have hsd2 := nbEntry_touch_other e1 d s s d ts false hdsne
          have hds1 := nbEntry_touch_other edges s d d s ts false hsdne
          have hds2 := nbEntry_touch_self e1 d s ts hd hs (fun h => hne h.symm)
          have hmono := record_neighbors_loop_mono ts (some d :: rest) e2 s d
          have hmono' := record_neighbors_loop_mono ts (some d :: rest) e2 d s
          refine ⟨?_, ?_, ?_, ?_⟩
          · calc (nbEntry edges s d).count + 1 = (nbEntry e1 s d).count := by
                  rw [hsd1]
              _ = (nbEntry e2 s d).count := by rw [hsd2]
              _ ≤ _ := hmono.1
          · calc (nbEntry edges d s).count + 1
                = (nbEntry e1 d s).count + 1 := by rw [hds1]
              _ = (nbEntry e2 d s).count := by rw [hds2]
              _ ≤ _ := hmono'.1
          · have h1 : (nbEntry e2 s d).last_seen ≥ ts := by
              rw [hsd2, hsd1]
              exact le_max_right _ _
            exact le_trans h1 hmono.2.1
          · rw [hmono.2.2, hsd2, hsd1]
  | succ n ih =>
      match ids, hi, hj with
      | x :: tail, hi, hj =>
          have hi' : tail.get? n = some (some s) := by simpa using hi
          have hj' : tail.get? (n + 1) = some (some d) := by simpa using hj
          match tail, hi', hj' with
          | y :: rest, hi', hj' =>
              rw [record_neighbors_loop]
              by_cases hskip : (¬ tstr x = true ∨ ¬ tstr y = true ∨ x = y)
              · rw [if_pos hskip]
                exact ih (y :: rest) edges hi' hj'
              · rw [if_neg hskip]
                have h1 := nbEntry_touch_mono edges (x.getD "") (y.getD "") s d ts
                have h2 := nbEntry_touch_mono
                  (touch_neighbor edges (x.getD "") (y.getD "") ts false)
                  (y.getD "") (x.getD "") s d ts
                have h1' := nbEntry_touch_mono edges (x.getD "") (y.getD "") d s ts
                have h2' := nbEntry_touch_mono
                  (touch_neighbor edges (x.getD "") (y.getD "") ts false)
                  (y.getD "") (x.getD "") d s ts
                have hrec := ih (y :: rest)
                  (touch_neighbor (touch_neighbor edges (x.getD "") (y.getD "") ts false)
                    (y.getD "") (x.getD "") ts false) hi' hj'
                refine ⟨?_, ?_, hrec.2.2.1, ?_⟩
                · have ha := le_trans h1.1 h2.1
                  have hb := hrec.1
                  omega
                · have ha := le_trans h1'.1 h2'.1
                  have hb := hrec.2.1
                  omega
                · rw [hrec.2.2.2, h2.2.2, h1.2.2]

/-- C7 (amended): when the broadcaster inserts a route that was resolved
from path hashes (non-empty used-hash list — the `point_ids and used_hashes`
guard), every adjacent pair of distinct resolved device-ids is recorded in
the neighbor graph in both directions: each directed count grows by at least
one, last-seen reaches at least the route ts, and the manual flag is
unchanged (so a fresh edge is non-manual).  Fanout and direct routes, whose
used-hash list is empty, leave the neighbor graph untouched. -/
theorem path_route_records_neighbors (cfg : Config) (st : AppState) (route : Route)
    (now ts : ℚ) (i : ℕ) (s d : String)
    (hused : route.hashes ≠ [])
    (hts : route.ts = ts)
    (hi : route.point_ids.get? i = some (some s))
    (hj : route.point_ids.get? (i + 1) = some (some d))
    (hs : s ≠ "") (hd : d ≠ "") (hne : s ≠ d) :
    dget (apply_route_insert cfg st route now).routes route.id = some route ∧
    (nbEntry (apply_route_insert cfg st route now).neighbor_edges s d).count ≥
      (nbEntry st.neighbor_edges s d).count + 1 ∧
    (nbEntry (apply_route_insert cfg st route now).neighbor_edges d s).count ≥
      (nbEntry st.neighbor_edges d s).count + 1 ∧
    (nbEntry (apply_route_insert cfg st route now).neighbor_edges s d).last_seen ≥ ts ∧
    (nbEntry (apply_route_insert cfg st route now).neighbor_edges s d).manual =
      (nbEntry st.neighbor_edges s d).manual := by
  have hlen : i + 1 < route.point_ids.length := List.get?_eq_some.mp hj |>.1
  have hids : ¬ route.point_ids.isEmpty = true := by
    cases hpi : route.point_ids with
    | nil => rw [hpi] at hj; simp [List.get?] at hj
    | cons a b => simp [hpi]
  have hner : (apply_route_insert cfg st route now).neighbor_edges =
      record_neighbors route.point_ids route.ts st.neighbor_edges := by
    unfold apply_route_insert
    simp only
    rw [if_pos ⟨hids, by simpa using hused⟩]
  have hrn : record_neighbors route.point_ids route.ts st.neighbor_edges =
      record_neighbors_loop route.ts route.point_ids st.neighbor_edges := by
    unfold record_neighbors
    rw [if_neg (by omega)]
  have hadj := record_neighbors_loop_adjacent route.ts i route.point_ids
    st.neighbor_edges s d hi hj hs hd hne
  refine ⟨?_, ?_, ?_, ?_, ?_⟩
  · unfold apply_route_insert
    simp only
    rw [dget_dset, if_pos rfl]
  · rw [hner, hrn]; exact hadj.1
  · rw [hner, hrn]; exact hadj.2.1
  · rw [hner, hrn, ← hts]; exact hadj.2.2.1
  · rw [hner, hrn]; exact hadj.2.2.2

/-- The route the C9/C7 fanout event inserts. -/
def routeC7 : Route :=
  { id := "H1-RB1", points := [(1, 2), (3, 4)], hashes := []
    point_ids := [some "OA1", some "RB1"], route_mode := "fanout"
    ts := 95, expires_at := 96, origin_id := some "OA1"
    receiver_id := some "RB1", message_hash := some "H1"
    topic := some "meshcore/x/RB1/packets" }

/-- C7 counterexample: the broadcaster inserts a fanout route whose resolved
point-ids form the adjacent distinct pair (OA1, RB1), yet the neighbor graph
stays empty: the `point_ids and used_hashes` guard skips neighbor recording
for every route that was not resolved from path hashes. -/
theorem fanout_route_skips_neighbors :
    stateC9post.routes = [("H1-RB1", routeC7)] ∧
    routeC7.point_ids = [some "OA1", some "RB1"] ∧
    ("OA1" : String) ≠ "RB1" ∧
    stateC9post.neighbor_edges = [] ∧
    (nbEntry stateC9post.neighbor_edges "OA1" "RB1").count = 0 := by
  refine ⟨by decide, by decide, by decide, by decide, by decide⟩

/-- C7 witness: the amended theorem applied to a concrete path-resolved
route inserted into the empty state. -/
theorem path_route_records_neighbors_witness :
    dget (apply_route_insert cfgBase emptyAppState
      { id := "H9", points := [(1, 2), (3, 4)], hashes := ["AB"]
        point_ids := [some "AB1", some "RB1"], route_mode := "path"
        ts := 50, expires_at := 170 } 50).routes "H9" = some
      { id := "H9", points := [(1, 2), (3, 4)], hashes := ["AB"]
        point_ids := [some "AB1", some "RB1"], route_mode := "path"
        ts := 50, expires_at := 170 } ∧
    (nbEntry (apply_route_insert cfgBase emptyAppState
      { id := "H9", points := [(1, 2), (3, 4)], hashes := ["AB"]
        point_ids := [some "AB1", some "RB1"], route_mode := "path"
        ts := 50, expires_at := 170 } 50).neighbor_edges "AB1" "RB1").count ≥
      (nbEntry emptyAppState.neighbor_edges "AB1" "RB1").count + 1 ∧
    (nbEntry (apply_route_insert cfgBase emptyAppState
      { id := "H9", points := [(1, 2), (3, 4)], hashes := ["AB"]
        point_ids := [some "AB1", some "RB1"], route_mode := "path"
        ts := 50, expires_at := 170 } 50).neighbor_edges "RB1" "AB1").count ≥
      (nbEntry emptyAppState.neighbor_edges "RB1" "AB1").count + 1 ∧
    (nbEntry (apply_route_insert cfgBase emptyAppState
      { id := "H9", points := [(1, 2), (3, 4)], hashes := ["AB"]
        point_ids := [some "AB1", some "RB1"], route_mode := "path"
        ts := 50, expires_at := 170 } 50).neighbor_edges "AB1" "RB1").last_seen ≥ 50 ∧
    (nbEntry (apply_route_insert cfgBase emptyAppState
      { id := "H9", points := [(1, 2), (3, 4)], hashes := ["AB"]
        point_ids := [some "AB1", some "RB1"], route_mode := "path"
        ts := 50, expires_at := 170 } 50).neighbor_edges "AB1" "RB1").manual =
      (nbEntry emptyAppState.neighbor_edges "AB1" "RB1").manual :=
  path_route_records_neighbors cfgBase emptyAppState
    { id := "H9", points := [(1, 2), (3, 4)], hashes := ["AB"]
      point_ids := [some "AB1", some "RB1"], route_mode := "path"
      ts := 50, expires_at := 170 } 50 50 0 "AB1" "RB1"
    (by decide) (by decide) (by decide) (by decide)
    (by decide) (by decide) (by decide)

/-! ### C8 -/

/-- The radius and length invariants of the trails map: every entry of every
trail lies within the configured map radius, and no trail is longer than the
configured trail length. -/
def TrailInv (cfg : Config) (trails : Dict (List TrailEntry)) : Prop :=
  ∀ id tr, dget trails id = some tr →
    (∀ e ∈ tr, within_map_radius cfg e.1 e.2.1 = true) ∧
    (tr.length : ℤ) ≤ max cfg.trailLen 0

theorem TrailInv_derase (cfg : Config) (trails : Dict (List TrailEntry))
    (id : String) (h : TrailInv cfg trails) : TrailInv cfg (derase trails id) := by
  intro id' tr hget
  rw [dget_derase] at hget
  by_cases hi : id' = id
  · rw [if_pos hi] at hget; simp at hget
  · rw [if_neg hi] at hget
    exact h id' tr hget

/-- C8 (amended): the radius and length parts of the trail invariant hold in
the empty state and are preserved by the broadcaster's position step and by
device eviction (the trail-mutating operations); timestamp monotonicity is
not an invariant — see the counterexample. -/
theorem trail_invariants (cfg : Config) (st : AppState) (upd : Upd) (now : ℚ)
    (device_id : String) (hinv : TrailInv cfg st.trails) :
    TrailInv cfg emptyAppState.trails ∧
    TrailInv cfg (evict_device st device_id).2.trails ∧
    TrailInv cfg (broadcaster_position_step cfg st upd now).trails := by
  refine ⟨?_, ?_, ?_⟩
  · intro id tr hget
    simp [emptyAppState, dget] at hget
  · unfold evict_device
    by_cases hrem : dmem st.devices device_id
    · simp only [hrem, if_pos]
      exact TrailInv_derase cfg st.trails device_id hinv
    · simp only [hrem]
      simp only [Bool.false_eq_true, if_false]
      exact TrailInv_derase cfg st.trails device_id hinv
  · unfold broadcaster_position_step
    by_cases hrad : within_map_radius cfg upd.lat upd.lon = true
    · rw [if_neg (by simp [hrad])]
      simp only
      by_cases hbranch : (cfg.trailLen > 0 ∧ ¬ coords_are_zero upd.lat upd.lon = true)
      · rw [if_pos hbranch]
        intro id tr hget
        rw [dget_dset] at hget
        by_cases hid : upd.device_id = id
        · rw [if_pos hid] at hget
          set tr0 := (dget st.trails upd.device_id).getD [] ++ [(upd.lat, upd.lon, upd.ts)]
            with htr0
          have htr : (if ((tr0.length : ℤ) > cfg.trailLen)
              then tr0.drop (tr0.length - cfg.trailLen.toNat) else tr0) = tr :=
            Option.some_injective _ hget
          rw [← htr]
          have hall : ∀ e ∈ tr0, within_map_radius cfg e.1 e.2.1 = true := by
            intro e he
            rcases List.mem_append.mp he with hleft | hright
            · cases hg : dget st.trails upd.device_id with
              | none => rw [hg] at hleft; simp at hleft
              | some trOld =>
                  rw [hg] at hleft
                  exact (hinv upd.device_id trOld hg).1 e (by simpa using hleft)
            · have : e = (upd.lat, upd.lon, upd.ts) := by simpa using hright
              rw [this]
              exact hrad
          by_cases hover : (tr0.length : ℤ) > cfg.trailLen
          · rw [if_pos hover]
            constructor
            · intro e he
              exact hall e (List.drop_subset _ tr0 he)
            · rw [List.length_drop]
              have h1 : cfg.trailLen.toNat ≤ tr0.length := by omega
              have : tr0.length - (tr0.length - cfg.trailLen.toNat) = cfg.trailLen.toNat := by
                omega
              rw [this]
              omega
          · rw [if_neg hover]
            exact ⟨hall, by omega⟩
        · rw [if_neg hid] at hget
          exact hinv id tr hget
      · rw [if_neg hbranch]
        by_cases hmem : dmem st.trails upd.device_id = true
        · rw [if_pos hmem]
          exact TrailInv_derase cfg st.trails upd.device_id hinv
        · rw [if_neg hmem]
          exact hinv
    · rw [if_pos (by simp [hrad])]
      unfold evict_device
      by_cases hrem : dmem st.devices upd.device_id
      · simp only [hrem, if_pos]
        exact TrailInv_derase cfg st.trails upd.device_id hinv
      · simp only [hrem]
        simp only [Bool.false_eq_true, if_false]
        exact TrailInv_derase cfg st.trails upd.device_id hinv

/-- C8 counterexample: two position events for the same device carrying
payload timestamps 5 then 3 leave a trail whose consecutive entries have
strictly decreasing timestamps — monotonicity does not hold. -/
theorem trail_ts_not_monotone :
    dget (broadcaster_position_step cfgBase
      (broadcaster_position_step cfgBase emptyAppState
        { device_id := "AA1", lat := 1, lon := 2, ts := 5 } 100)
      { device_id := "AA1", lat := 1, lon := 2, ts := 3 } 101).trails "AA1" =
      some [(1, 2, 5), (1, 2, 3)] ∧ ¬ ((5 : ℚ) ≤ 3) := by
  refine ⟨by decide, by decide⟩

/-- C8 witness: the amended invariant theorem applied to the empty state. -/
theorem trail_invariants_witness :
    TrailInv cfgBase emptyAppState.trails ∧
    TrailInv cfgBase (evict_device emptyAppState "X1").2.trails ∧
    TrailInv cfgBase (broadcaster_position_step cfgBase emptyAppState
      { device_id := "AA1", lat := 1, lon := 2, ts := 5 } 100).trails :=
  trail_invariants cfgBase emptyAppState
    { device_id := "AA1", lat := 1, lon := 2, ts := 5 } 100 "X1"
    (fun id tr hget => absurd hget (by simp [emptyAppState, dget]))

/-! ### C5 -/

theorem dkeys_filter_subset (d : Dict α) (P : String × α → Bool) :
    dkeys (d.filter P) ⊆ dkeys d := by
  intro x hx
  obtain ⟨kv, hkv, hfst⟩ := List.mem_map.mp hx
  exact hfst ▸ List.mem_map.mpr ⟨kv, List.mem_of_mem_filter hkv, rfl⟩

theorem dget_filter_nodup (d : Dict α) (P : String × α → Bool) (id : String)
    (hnd : (dkeys d).Nodup) :
    dget (d.filter P) id =
      match dget d id with
      | some v => if P (id, v) then some v else none
      | none => none := by
  induction d with
  | nil => simp
  | cons kv rest ih =>
      obtain ⟨k, w⟩ := kv
      have hnd' : (dkeys rest).Nodup := (List.nodup_cons.mp hnd).2
      by_cases hk : k = id
      · subst hk
        have hnotin : k ∉ dkeys rest := (List.nodup_cons.mp hnd).1
        have hnone : dget rest k = none := (dget_eq_none_iff rest k).mpr hnotin
        have hfnone : dget (rest.filter P) k = none := by
          rw [dget_eq_none_iff]
          intro hmem
          exact hnotin (dkeys_filter_subset rest P hmem)
        by_cases hp : P (k, w) = true
        · rw [List.filter_cons_of_pos hp]
          simp [dget, hp]
        · rw [List.filter_cons_of_neg (by simpa using hp)]
          simp only [dget_cons, if_pos rfl]
          rw [hfnone]
          simp [hp]
      · by_cases hp : P (k, w) = true
        · rw [List.filter_cons_of_pos hp]
          simp only [dget_cons, if_neg hk]
          exact ih hnd'
        · rw [List.filter_cons_of_neg (by simpa using hp)]
          simp only [dget_cons, if_neg hk]
          exact ih hnd'

theorem dget_foldl_derase (l : List String) (m : Dict α) (id : String) :
    dget (l.foldl (fun acc i => derase acc i) m) id =
      if id ∈ l then none else dget m id := by
  induction l generalizing m with
  | nil => simp
  | cons x rest ih =>
      simp only [List.foldl_cons, ih, List.mem_cons]
      by_cases hx : id = x
      · subst hx
        rw [dget_derase]
        by_cases hr : id ∈ rest <;> simp [hr]
      · rw [dget_derase, if_neg hx]
        by_cases hr : id ∈ rest <;> simp [hr, hx]

theorem dget_map_kv (d : Dict α) (f : String → α → β) (id : String) :
    dget (d.map (fun kv => (kv.1, f kv.1 kv.2))) id = (dget d id).map (f id) := by
  induction d with
  | nil => simp
  | cons kv rest ih =>
      obtain ⟨k, w⟩ := kv
      by_cases hk : k = id
      · subst hk
        simp [dget]
      · simp [dget, hk, ih]

theorem dget_clean_trails (cfg : Config) (trails : Dict (List TrailEntry))
    (id : String) (hnd : (dkeys trails).Nodup) :
    dget (clean_trails cfg trails).1 id =
      match dget trails id with
      | some tr =>
          if (tr.filter (trail_entry_ok cfg)).isEmpty then none
          else some (tr.filter (trail_entry_ok cfg))
      | none => none := by
  induction trails with
  | nil => simp [clean_trails]
  | cons kv rest ih =>
      obtain ⟨k, tr⟩ := kv
      have hnd' : (dkeys rest).Nodup := (List.nodup_cons.mp hnd).2
      rw [clean_trails]
      by_cases hk : k = id
      · subst hk
        have hnotin : k ∉ dkeys rest := (List.nodup_cons.mp hnd).1
        have hcnone : dget (clean_trails cfg rest).1 k = none := by
          rw [ih hnd']
          rw [(dget_eq_none_iff rest k).mpr hnotin]
        by_cases he : (tr.filter (trail_entry_ok cfg)).isEmpty = true
        · rw [if_pos he, hcnone]
          simp [dget, he]
        · rw [if_neg he]
          simp [dget, he]
      · by_cases he : (tr.filter (trail_entry_ok cfg)).isEmpty = true
        · rw [if_pos he]
          simp only [dget_cons, if_neg hk]
          exact ih hnd'
        · rw [if_neg he]
          simp only [dget_cons, if_neg hk]
          exact ih hnd'

theorem load_role_step_other (dropped : List String) (sources1 : Dict String)
    (acc : Dict String) (kv : String × String) (id : String) (h : kv.1 ≠ id) :
    dget (load_role_step dropped sources1 acc kv) id = dget acc id := by
  unfold load_role_step
  split
  · rfl
  · split
    · rfl
    · split
      · split
        · rw [dget_dset, if_neg h]
        · rfl
      · rfl

theorem roles_fold_untouched (dropped : List String) (sources1 : Dict String)
    (l : Dict String) (acc : Dict String) (id : String) (h : id ∉ dkeys l) :
    dget (l.foldl (load_role_step dropped sources1) acc) id = dget acc id := by
  induction l generalizing acc with
  | nil => simp
  | cons kv rest ih =>
      simp only [List.foldl_cons]
      have hcons : dkeys (kv :: rest) = kv.1 :: dkeys rest := rfl
      have hne : kv.1 ≠ id := fun hc =>
        h (by rw [hcons, hc]; exact List.mem_cons_self _ _)
      rw [ih _ (fun hc => h (by rw [hcons]; exact List.mem_cons_of_mem _ hc))]
      exact load_role_step_other dropped sources1 acc kv id hne

theorem roles_fold_get (dropped : List String) (sources1 : Dict String)
    (l : Dict String) (acc : Dict String) (id v : String)
    (hnd : (dkeys l).Nodup) (hget : dget l id = some v)
    (htrim : strTrim v ≠ "") (hdrop : id ∉ dropped)
    (hsrc : dget sources1 id = some "explicit" ∨ dget sources1 id = some "override") :
    dget (l.foldl (load_role_step dropped sources1) acc) id = some (strTrim v) := by
  induction l generalizing acc with
  | nil => simp [dget] at hget
  | cons kv rest ih =>
      obtain ⟨k, w⟩ := kv
      have hnd' : (dkeys rest).Nodup := (List.nodup_cons.mp hnd).2
      simp only [List.foldl_cons]
      by_cases hk : k = id
      · subst hk
        have hv : w = v := by simpa [dget] using hget
        subst hv
        have hnotin : k ∉ dkeys rest := (List.nodup_cons.mp hnd).1
        rw [roles_fold_untouched dropped sources1 rest _ k hnotin]
        unfold load_role_step
        rw [if_neg (by simpa using hdrop)]
        simp only
        rw [if_neg (by simpa using htrim)]
        rcases hsrc with hs | hs
        · rw [hs]
          simp [dget_dset]
        · rw [hs]
          simp [dget_dset]
      · have hget' : dget rest id = some v := by simpa [dget, hk] using hget
        exact ih _ hnd' hget'

/-- The ids dropped by the device-loading pass. -/
theorem not_dropped_of_ok (cfg : Config) (devices : Dict DeviceState)
    (id : String) (ds : DeviceState) (hnd : (dkeys devices).Nodup)
    (hget : dget devices id = some ds) (hok : load_device_ok cfg ds = true) :
    id ∉ ((devices.filter (fun kv => ¬ load_device_ok cfg kv.2)).map Prod.fst) := by
  intro hin
  obtain ⟨⟨k, v⟩, hmem, hfst⟩ := List.mem_map.mp hin
  obtain ⟨hmemd, hbad⟩ := List.mem_filter.mp hmem
  subst hfst
  have := dget_of_mem_nodup devices _ v hnd hmemd
  rw [hget] at this
  obtain rfl : ds = v := by simpa using this
  rw [hok] at hbad
  simp at hbad

theorem apply_names_roles_fields (names roles : Dict String) (id : String)
    (ds : DeviceState) :
    (apply_names_roles names roles id ds).lat = ds.lat ∧
    (apply_names_roles names roles id ds).lon = ds.lon ∧
    (apply_names_roles names roles id ds).ts = ds.ts ∧
    (apply_names_roles names roles id ds).device_id = ds.device_id := by
  unfold apply_names_roles
  split <;> simp

/-- C5 (amended): serialize → load preserves, per device id: the surviving
device's coordinates and timestamps, its trail (when its entries all pass
the radius/zero filters), its non-blank name, and its role — *provided the
role's recorded source is `explicit` or `override`* (and the overrides file
is empty).  The loader drops any role whose source is missing or
unrecognized, which is what the counterexample exhibits. -/
theorem save_load_roundtrip (cfg : Config) (st : AppState) (id : String)
    (ds : DeviceState)
    (hov : cfg.roleOverrides = [])
    (hTL : cfg.trailLen > 0)
    (hNdD : (dkeys st.devices).Nodup)
    (hNdT : (dkeys st.trails).Nodup)
    (hNdN : (dkeys st.device_names).Nodup)
    (hNdR : (dkeys st.device_roles).Nodup)
    (hNdS : (dkeys st.device_role_sources).Nodup)
    (hds : dget st.devices id = some ds)
    (hok : load_device_ok cfg ds = true) :
    (∃ ds', dget (load_state cfg (serialize_state st)).devices id = some ds' ∧
      ds'.lat = ds.lat ∧ ds'.lon = ds.lon ∧ ds'.ts = ds.ts ∧
      ds'.device_id = ds.device_id) ∧
    (∀ tr, dget st.trails id = some tr → tr ≠ [] →
      (∀ e ∈ tr, trail_entry_ok cfg e = true) →
      dget (load_state cfg (serialize_state st)).trails id = some tr) ∧
    (∀ nm, dget st.device_names id = some nm → strTrim nm ≠ "" →
      dget (load_state cfg (serialize_state st)).device_names id = some nm) ∧
    (∀ r, dget st.device_roles id = some r → strTrim r ≠ "" →
      (dget st.device_role_sources id = some "explicit" ∨
        dget st.device_role_sources id = some "override") →
      dget (load_state cfg (serialize_state st)).device_roles id = some (strTrim r)) := by
  have hdrop : id ∉ load_dropped cfg (serialize_state st) := by
    unfold load_dropped serialize_state
    exact not_dropped_of_ok cfg st.devices id ds hNdD hds hok
  refine ⟨?_, ?_, ?_, ?_⟩
  · refine ⟨apply_names_roles (load_names cfg (serialize_state st))
      (load_roles_final cfg (serialize_state st)) id ds, ?_, ?_⟩
    · show dget ((load_devices_kept cfg (serialize_state st)).map (fun kv =>
        (kv.1, apply_names_roles (load_names cfg (serialize_state st))
          (load_roles_final cfg (serialize_state st)) kv.1 kv.2))) id = _
      rw [dget_map_kv]
      have hkept : dget (load_devices_kept cfg (serialize_state st)) id = some ds := by
        unfold load_devices_kept serialize_state
        rw [dget_filter_nodup _ _ _ hNdD, hds]
        simp [hok]
      rw [hkept]
      rfl
    · exact apply_names_roles_fields _ _ id ds
  · intro tr htr hne hall
    show dget (load_trails cfg (serialize_state st)) id = some tr
    unfold load_trails
    rw [dget_foldl_derase, if_neg hdrop]
    unfold load_trails_pair
    rw [if_neg (by rintro ⟨hc, _⟩; omega)]
    have hckeys : ((serialize_state st).trails) = st.trails := rfl
    rw [dget_clean_trails _ _ _ (by rw [hckeys]; exact hNdT)]
    rw [hckeys, htr]
    have hfilter : tr.filter (trail_entry_ok cfg) = tr :=
      List.filter_eq_self.mpr hall
    have hemp : tr.isEmpty = false := by
      cases tr with
      | nil => exact absurd rfl hne
      | cons e rest => rfl
    simp [hfilter, hemp]
  · intro nm hnm htrim
    show dget (load_names cfg (serialize_state st)) id = some nm
    unfold load_names
    rw [dget_foldl_derase, if_neg hdrop]
    have hckeys : ((serialize_state st).device_names) = st.device_names := rfl
    rw [dget_filter_nodup _ _ _ (by rw [hckeys]; exact hNdN), hckeys, hnm]
    simp [htrim]
  · intro r hr htrim hsrc
    show dget (load_roles_final cfg (serialize_state st)) id = some (strTrim r)
    unfold load_roles_final
    rw [dget_foldl_derase, if_neg hdrop]
    unfold load_roles_overridden
    rw [if_pos (by rw [hov]; rfl)]
    unfold load_roles0
    have hsrc1 : dget (load_sources1 cfg (serialize_state st)) id = some "explicit" ∨
        dget (load_sources1 cfg (serialize_state st)) id = some "override" := by
      unfold load_sources1
      rw [dget_foldl_derase, if_neg hdrop]
      have hckeys : ((serialize_state st).device_role_sources) = st.device_role_sources := rfl
      rw [dget_filter_nodup _ _ _ (by rw [hckeys]; exact hNdS), hckeys]
      rcases hsrc with hs | hs
      · rw [hs]
        left
        simp [strTrim, isSpaceChar]
      · rw [hs]
        right
        simp [strTrim, isSpaceChar]
    exact roles_fold_get (load_dropped cfg (serialize_state st))
      (load_sources1 cfg (serialize_state st)) st.device_roles [] id r
      hNdR hr htrim hdrop hsrc1

/-- The snapshot a second `serialize_state` would produce after a load: the
live maps are exactly the loaded ones. -/
def serialize_after_load (lm : LoadedMaps) : SavedState :=
  { devices := lm.devices, trails := lm.trails, seen_devices := lm.seen_devices
    device_names := lm.device_names, device_roles := lm.device_roles
    device_role_sources := lm.device_role_sources }

/-- The device state the C5 position event creates. -/
def dsC5 : DeviceState :=
  { device_id := "AA1", lat := 1, lon := 2, ts := 5, role := some "repeater" }

/-- A reachable state with a sourceless role: a single position event whose
parsed update carries a role writes `device_roles` without touching
`device_role_sources`. -/
def stateC5 : AppState :=
  broadcaster_position_step cfgBase emptyAppState
    { device_id := "AA1", lat := 1, lon := 2, ts := 5, role := some "repeater" } 100

/-- C5 counterexample: in the reachable state `stateC5` the device AA1
survives the load filters, its role "repeater" is present at save time, yet
after save → load the role map is empty (the loader drops roles whose
recorded source is not `explicit`/`override`), so a second serialize differs
from the first. -/
theorem role_lost_on_roundtrip :
    dget stateC5.device_roles "AA1" = some "repeater" ∧
    dget stateC5.device_role_sources "AA1" = none ∧
    dget stateC5.devices "AA1" = some dsC5 ∧
    load_device_ok cfgBase dsC5 = true ∧
    (dget (load_state cfgBase (serialize_state stateC5)).devices "AA1").isSome = true ∧
    dget (load_state cfgBase (serialize_state stateC5)).device_roles "AA1" = none ∧
    (serialize_after_load (load_state cfgBase (serialize_state stateC5))).device_roles ≠
      (serialize_state stateC5).device_roles := by
  refine ⟨by decide, by decide, by decide, by decide, by decide, by decide, by decide⟩

/-- The C5 witness device. -/
def dsC5W : DeviceState :=
  { device_id := "AA1", lat := 1, lon := 2, ts := 5
    name := some "NodeA", role := some "repeater" }

/-- The C5 witness fixture: a state whose role has source `explicit`. -/
def stateC5W : AppState :=
  { emptyAppState with
      devices := [("AA1", dsC5W)]
      trails := [("AA1", [(1, 2, 5)])]
      device_names := [("AA1", "NodeA")]
      device_roles := [("AA1", "repeater")]
      device_role_sources := [("AA1", "explicit")] }

/-- C5 witness: the amended round-trip theorem applied at a concrete state
with an explicit role source. -/
theorem save_load_roundtrip_witness :
    (∃ ds', dget (load_state cfgBase (serialize_state stateC5W)).devices "AA1" = some ds' ∧
      ds'.lat = dsC5W.lat ∧ ds'.lon = dsC5W.lon ∧ ds'.ts = dsC5W.ts ∧
      ds'.device_id = dsC5W.device_id) ∧
    (∀ tr, dget stateC5W.trails "AA1" = some tr → tr ≠ [] →
      (∀ e ∈ tr, trail_entry_ok cfgBase e = true) →
      dget (load_state cfgBase (serialize_state stateC5W)).trails "AA1" = some tr) ∧
    (∀ nm, dget stateC5W.device_names "AA1" = some nm → strTrim nm ≠ "" →
      dget (load_state cfgBase (serialize_state stateC5W)).device_names "AA1" = some nm) ∧
    (∀ r, dget stateC5W.device_roles "AA1" = some r → strTrim r ≠ "" →
      (dget stateC5W.device_role_sources "AA1" = some "explicit" ∨
        dget stateC5W.device_role_sources "AA1" = some "override") →
      dget (load_state cfgBase (serialize_state stateC5W)).device_roles "AA1" =
        some (strTrim r)) :=
  save_load_roundtrip cfgBase stateC5W "AA1" dsC5W
    (by decide) (by decide) (by decide) (by decide) (by decide) (by decide)
    (by decide) (by decide) (by decide)

/-! ### C6 -/

/-- The canonical key a segment's stored endpoints re-normalize to — exactly
the computation the prune loop performs on a popped segment. -/
def segCanonKey (cfg : Config) (s : HistSeg) : Option String :=
  match normalize_history_point cfg s.a, normalize_history_point cfg s.b with
  | some a, some b => some (history_edge_key a b).1
  | _, _ => none

/-- The number of segments in the deque whose endpoints canonicalize to `k`. -/
def countSegs (cfg : Config) (segs : List HistSeg) (k : String) : ℤ :=
  ((segs.filter (fun s => segCanonKey cfg s = some k)).length : ℤ)

/-- The count recorded in the edge map for key `k` (0 when absent). -/
def edgeCountFor (edges : Dict HistEdge) (k : String) : ℤ :=
  match dget edges k with
  | some e => e.count
  | none => 0

/-- The count/deque agreement for an arbitrary segment list and edge map:
every key's recorded count equals the number of matching segments, and every
edge present in the map has a positive count. -/
def edgesMatch (cfg : Config) (segs : List HistSeg) (edges : Dict HistEdge) : Prop :=
  (∀ k, edgeCountFor edges k = countSegs cfg segs k) ∧
  (∀ k e, dget edges k = some e → 0 < e.count)

/-- C6's invariant: every key's recorded count equals the number of matching
segments in the deque (in particular an absent edge has no matching
segments, so an edge whose count reaches zero has been removed), and every
edge present in the map has a positive count. -/
def HistInv (cfg : Config) (h : HistState) : Prop :=
  edgesMatch cfg h.segments h.edges

/-- The rounding-stability of the configured radius test: a point inside the
radius stays inside after rounding to six decimals.  (It holds trivially
when the radius filter is disabled, and is the geometric premise under which
record-time filtering and prune-time re-normalization agree.) -/
def RadiusRoundStable (cfg : Config) : Prop :=
  ∀ lat lon, within_map_radius cfg lat lon = true →
    within_map_radius cfg (round6 lat) (round6 lon) = true

theorem countSegs_cons (cfg : Config) (s : HistSeg) (rest : List HistSeg)
    (k : String) :
    countSegs cfg (s :: rest) k =
      (if segCanonKey cfg s = some k then 1 else 0) + countSegs cfg rest k := by
  unfold countSegs
  by_cases h : segCanonKey cfg s = some k
  · rw [List.filter_cons_of_pos (by simpa using h), if_pos h]
    push_cast [List.length_cons]
    ring
  · rw [List.filter_cons_of_neg (by simpa using h), if_neg h]
    ring

theorem countSegs_append (cfg : Config) (l1 l2 : List HistSeg) (k : String) :
    countSegs cfg (l1 ++ l2) k = countSegs cfg l1 k + countSegs cfg l2 k := by
  unfold countSegs
  rw [List.filter_append, List.length_append]
  push_cast
  ring

theorem ratAbs_round6_not_zero (q : ℚ) (h : ¬ ratAbs q < 1/1000000) :
    ¬ ratAbs (round6 q) < 1/1000000 := by
  unfold ratAbs at h ⊢
  by_cases hq : q < 0
  · rw [if_pos hq] at h
    push_neg at h
    have h2 : q ≤ -(1/1000000) := by linarith
    have h3 := round6_le_of_le q h2
    have h4 : round6 q < 0 := by linarith
    rw [if_pos h4]
    push_neg
    linarith
  · rw [if_neg hq] at h
    push_neg at h ⊢
    have h3 := round6_ge_of_ge q h
    rw [if_neg (by linarith : ¬ round6 q < 0)]
    linarith

theorem coords_are_zero_round6 (lat lon : ℚ)
    (h : coords_are_zero lat lon = false) :
    coords_are_zero (round6 lat) (round6 lon) = false := by
  unfold coords_are_zero at h ⊢
  rw [Bool.and_eq_false_iff] at h ⊢
  rcases h with h | h
  · left
    have := ratAbs_round6_not_zero lat (by simpa using h)
    simpa using this
  · right
    have := ratAbs_round6_not_zero lon (by simpa using h)
    simpa using this

/-- Re-normalizing an already-normalized point is the identity (given the
radius test's rounding stability). -/
theorem normalize_history_point_idem (cfg : Config) (p q : Point)
    (hstable : RadiusRoundStable cfg)
    (h : normalize_history_point cfg p = some q) :
    normalize_history_point cfg q = some q := by
  unfold normalize_history_point at h ⊢
  by_cases hz : coords_are_zero p.1 p.2 = true
  · rw [if_pos hz] at h; simp at h
  · rw [if_neg hz] at h
    by_cases hr : within_map_radius cfg p.1 p.2 = true
    · rw [if_neg (by simp [hr])] at h
      have hq : q = (round6 p.1, round6 p.2) := by
        simpa using h.symm
      subst hq
      have hz' : coords_are_zero (round6 p.1) (round6 p.2) = false :=
        coords_are_zero_round6 p.1 p.2 (by simpa using hz)
      rw [if_neg (by simp [hz'])]
      have hr' := hstable p.1 p.2 hr
      rw [if_neg (by simp [hr'])]
      simp [round6_idem]
    · rw [if_pos (by simpa using hr)] at h
      simp at h

theorem pairLe_total (a b : Point) (h : pairLe a b = false) : pairLe b a = true := by
  unfold pairLe at h ⊢
  rw [Bool.or_eq_false_iff] at h
  obtain ⟨h1, h2⟩ := h
  rw [Bool.and_eq_false_iff] at h2
  simp only [decide_eq_false_iff_not, not_lt] at h1
  rw [Bool.or_eq_true_iff]
  rcases h2 with h2 | h2
  · simp only [decide_eq_false_iff_not] at h2
    left
    simp only [decide_eq_true_eq]
    exact lt_of_le_of_ne h1 (fun he => h2 he.symm)
  · simp only [decide_eq_false_iff_not, not_le] at h2
    by_cases he : b.1 = a.1
    · right
      rw [Bool.and_eq_true_iff]
      exact ⟨by simpa using he, by simp [le_of_lt h2]⟩
    · left
      simp only [decide_eq_true_eq]
      exact lt_of_le_of_ne h1 he

/-- The sorted pair a key was built from re-sorts to itself, reproducing the
same key. -/
theorem history_edge_key_sorted (a b : Point) :
    history_edge_key (history_edge_key a b).2.1 (history_edge_key a b).2.2 =
      history_edge_key a b := by
  by_cases h : pairLe a b = true
  · simp only [history_edge_key, if_pos h]
  · have h2 := pairLe_total a b (by simpa using h)
    simp only [history_edge_key, if_neg h, if_pos h2]

theorem countSegs_nil (cfg : Config) (k : String) : countSegs cfg [] k = 0 := rfl

theorem countSegs_nonneg (cfg : Config) (segs : List HistSeg) (k : String) :
    0 ≤ countSegs cfg segs k :=
  Int.natCast_nonneg _

theorem countSegs_singleton (cfg : Config) (s : HistSeg) (k : String) :
    countSegs cfg [s] k = if segCanonKey cfg s = some k then 1 else 0 := by
  rw [show ([s] : List HistSeg) = s :: [] from rfl, countSegs_cons, countSegs_nil,
    add_zero]

theorem edgeCountFor_dset (edges : Dict HistEdge) (key k : String) (e : HistEdge) :
    edgeCountFor (dset edges key e) k =
      if key = k then e.count else edgeCountFor edges k := by
  unfold edgeCountFor
  rw [dget_dset]
  by_cases h : key = k <;> simp [h]

theorem edgeCountFor_derase (edges : Dict HistEdge) (key k : String) :
    edgeCountFor (derase edges key) k =
      if k = key then 0 else edgeCountFor edges k := by
  unfold edgeCountFor
  rw [dget_derase]
  by_cases h : k = key <;> simp [h]

theorem edgeCountFor_nonneg (edges : Dict HistEdge)
    (hp : ∀ k e, dget edges k = some e → 0 < e.count) (k : String) :
    0 ≤ edgeCountFor edges k := by
  unfold edgeCountFor
  cases h : dget edges k with
  | none => exact le_refl 0
  | some e => exact le_of_lt (hp k e h)

/-- The segment a `recordPair` call appends re-canonicalizes to the key it
incremented. -/
theorem segCanonKey_entry (cfg : Config) (hstable : RadiusRoundStable cfg)
    (a_raw b_raw a b : Point)
    (ha : normalize_history_point cfg a_raw = some a)
    (hb : normalize_history_point cfg b_raw = some b)
    (s : HistSeg)
    (hsa : s.a = (history_edge_key a b).2.1)
    (hsb : s.b = (history_edge_key a b).2.2) :
    segCanonKey cfg s = some (history_edge_key a b).1 := by
  have ha' := normalize_history_point_idem cfg a_raw a hstable ha
  have hb' := normalize_history_point_idem cfg b_raw b hstable hb
  have hfirst : normalize_history_point cfg (history_edge_key a b).2.1 =
      some (history_edge_key a b).2.1 := by
    by_cases h : pairLe a b = true
    · simp only [history_edge_key, if_pos h]; exact ha'
    · simp only [history_edge_key, if_neg h]; exact hb'
  have hsecond : normalize_history_point cfg (history_edge_key a b).2.2 =
      some (history_edge_key a b).2.2 := by
    by_cases h : pairLe a b = true
    · simp only [history_edge_key, if_pos h]; exact hb'
    · simp only [history_edge_key, if_neg h]; exact ha'
  unfold segCanonKey
  rw [hsa, hsb, hfirst, hsecond]
  show some (history_edge_key (history_edge_key a b).2.1 (history_edge_key a b).2.2).1 =
    some (history_edge_key a b).1
  rw [history_edge_key_sorted]

/-- Recording a segment and bumping its key's count preserves the
count/deque agreement. -/
theorem edgesMatch_insert (cfg : Config) (segs entries : List HistSeg)
    (edges : Dict HistEdge) (key : String) (entry : HistSeg) (e2 : HistEdge)
    (hinv : edgesMatch cfg (segs ++ entries) edges)
    (hck : segCanonKey cfg entry = some key)
    (hcount : e2.count = edgeCountFor edges key + 1) :
    edgesMatch cfg (segs ++ (entries ++ [entry])) (dset edges key e2) := by
  obtain ⟨hc, hp⟩ := hinv
  constructor
  · intro k
    rw [edgeCountFor_dset, ← List.append_assoc, countSegs_append, countSegs_singleton]
    by_cases hk : key = k
    · subst hk
      rw [if_pos rfl, if_pos hck, hcount, hc key]
    · rw [if_neg hk, if_neg (fun h => hk (Option.some.inj (hck.symm.trans h))),
        add_zero, hc k]
  · intro k e hke
    rw [dget_dset] at hke
    by_cases hk : key = k
    · rw [if_pos hk] at hke
      have he : e2 = e := Option.some.inj hke
      rw [← he, hcount]
      have := edgeCountFor_nonneg edges hp key
      linarith
    · rw [if_neg hk] at hke
      exact hp k e hke

/-- Popping a segment that no longer canonicalizes leaves the agreement
intact. -/
theorem edgesMatch_skip (cfg : Config) (seg : HistSeg) (rest : List HistSeg)
    (edges : Dict HistEdge) (hinv : edgesMatch cfg (seg :: rest) edges)
    (hck : segCanonKey cfg seg = none) :
    edgesMatch cfg rest edges := by
  obtain ⟨hc, hp⟩ := hinv
  refine ⟨fun k => ?_, hp⟩
  have h := hc k
  rw [countSegs_cons, if_neg (by simp [hck])] at h
  simpa using h

/-- A canonicalizing popped segment always finds its edge in the map. -/
theorem edgesMatch_pop_present (cfg : Config) (seg : HistSeg)
    (rest : List HistSeg) (edges : Dict HistEdge) (key : String)
    (hinv : edgesMatch cfg (seg :: rest) edges)
    (hck : segCanonKey cfg seg = some key)
    (hget : dget edges key = none) : False := by
  obtain ⟨hc, hp⟩ := hinv
  have h := hc key
  rw [countSegs_cons, if_pos hck] at h
  have h0 : edgeCountFor edges key = 0 := by unfold edgeCountFor; rw [hget]
  have h2 := countSegs_nonneg cfg rest key
  omega

/-- Popping the last segment of a key removes its edge and preserves the
agreement. -/
theorem edgesMatch_pop_erase (cfg : Config) (seg : HistSeg)
    (rest : List HistSeg) (edges : Dict HistEdge) (key : String) (edge : HistEdge)
    (hinv : edgesMatch cfg (seg :: rest) edges)
    (hck : segCanonKey cfg seg = some key)
    (hget : dget edges key = some edge)
    (hle : edge.count - 1 ≤ 0) :
    edgesMatch cfg rest (derase edges key) := by
  obtain ⟨hc, hp⟩ := hinv
  have hkey := hc key
  rw [countSegs_cons, if_pos hck] at hkey
  have hcnt : edgeCountFor edges key = edge.count := by
    unfold edgeCountFor; rw [hget]
  have hrest0 : countSegs cfg rest key = 0 := by
    have h2 := countSegs_nonneg cfg rest key
    omega
  refine ⟨fun k => ?_, fun k e hke => ?_⟩
  · rw [edgeCountFor_derase]
    by_cases hk : k = key
    · subst hk; rw [if_pos rfl, hrest0]
    · rw [if_neg hk]
      have h := hc k
      rw [countSegs_cons,
        if_neg (fun hh => hk (Option.some.inj (hck.symm.trans hh)).symm)] at h
      simpa using h
  · rw [dget_derase] at hke
    by_cases hk : k = key
    · rw [if_pos hk] at hke; exact absurd hke (by simp)
    · rw [if_neg hk] at hke; exact hp k e hke

/-- Popping a non-final segment of a key decrements its count and preserves
the agreement. -/
theorem edgesMatch_pop_dec (cfg : Config) (seg : HistSeg)
    (rest : List HistSeg) (edges : Dict HistEdge) (key : String)
    (edge e2 : HistEdge)
    (hinv : edgesMatch cfg (seg :: rest) edges)
    (hck : segCanonKey cfg seg = some key)
    (hget : dget edges key = some edge)
    (hpos : 0 < edge.count - 1)
    (hc2 : e2.count = edge.count - 1) :
    edgesMatch cfg rest (dset edges key e2) := by
  obtain ⟨hc, hp⟩ := hinv
  have hkey := hc key
  rw [countSegs_cons, if_pos hck] at hkey
  have hcnt : edgeCountFor edges key = edge.count := by
    unfold edgeCountFor; rw [hget]
  refine ⟨fun k => ?_, fun k e hke => ?_⟩
  · rw [edgeCountFor_dset]
    by_cases hk : key = k
    · subst hk; rw [if_pos rfl, hc2]; omega
    · rw [if_neg hk]
      have h := hc k
      rw [countSegs_cons,
        if_neg (fun hh => hk (Option.some.inj (hck.symm.trans hh)))] at h
      simpa using h
  · rw [dget_dset] at hke
    by_cases hk : key = k
    · rw [if_pos hk] at hke
      have he : e2 = e := Option.some.inj hke
      rw [← he, hc2]; exact hpos
    · rw [if_neg hk] at hke; exact hp k e hke

theorem update_history_edge_recent_count (cfg : Config) (e : HistEdge)
    (s : HistSample) : (update_history_edge_recent cfg e s).count = e.count := rfl

/-- One `recordPair` step preserves the agreement between the segments
appended so far and the edge map. -/
theorem recordPair_edgesMatch (cfg : Config) (hstable : RadiusRoundStable cfg)
    (sample : HistSample) (ts : ℚ) (a_raw b_raw : Point)
    (a_id b_id : Option String) (edges : Dict HistEdge)
    (segs entries : List HistSeg) (keys : List String)
    (hinv : edgesMatch cfg (segs ++ entries) edges) :
    edgesMatch cfg
      (segs ++ (recordPair cfg sample ts a_raw b_raw a_id b_id edges entries keys).2.1)
      (recordPair cfg sample ts a_raw b_raw a_id b_id edges entries keys).1 := by
  unfold recordPair
  cases hna : normalize_history_point cfg a_raw with
  | none => cases hnb : normalize_history_point cfg b_raw <;> exact hinv
  | some a =>
      cases hnb : normalize_history_point cfg b_raw with
      | none => exact hinv
      | some b =>
          dsimp only
          refine edgesMatch_insert cfg segs entries edges _ _ _ hinv ?_ ?_
          · exact segCanonKey_entry cfg hstable a_raw b_raw a b hna hnb _ rfl rfl
          · rw [update_history_edge_recent_count]
            unfold edgeCountFor
            cases hdg : dget edges (history_edge_key a b).1 <;> simp [hdg]

/-- The segment-recording loop preserves the agreement. -/
theorem recordLoop_edgesMatch (cfg : Config) (hstable : RadiusRoundStable cfg)
    (sample : HistSample) (ts : ℚ) (point_ids : List (Option String))
    (pts : List Point) :
    ∀ (idx : ℕ) (edges : Dict HistEdge) (segs entries : List HistSeg)
      (keys : List String),
      edgesMatch cfg (segs ++ entries) edges →
      edgesMatch cfg
        (segs ++ (recordLoop cfg sample ts point_ids pts idx edges entries keys).2.1)
        (recordLoop cfg sample ts point_ids pts idx edges entries keys).1 := by
  induction pts with
  | nil =>
      intro idx edges segs entries keys hinv
      exact hinv
  | cons p0 tail ih =>
      intro idx edges segs entries keys hinv
      cases tail with
      | nil => exact hinv
      | cons p1 rest =>
          simp only [recordLoop]
          exact ih (idx + 1) _ segs _ _
            (recordPair_edgesMatch cfg hstable sample ts p0 p1 _ _ edges segs
              entries keys hinv)

/-- The agreement, read off the result tuple of the prune popping loop. -/
def pruneInvOut (cfg : Config)
    (p : List HistSeg × Dict HistEdge × Bool × Dict HistEdge × List String) :
    Prop :=
  edgesMatch cfg p.1 p.2.1

set_option maxHeartbeats 1000000 in
/-- The prune popping loop preserves the agreement. -/
theorem pruneLoop_edgesMatch (cfg : Config) (now cutoff : ℚ) (force : Bool)
    (segs : List HistSeg) :
    ∀ (edges : Dict HistEdge) (compact : Bool) (updated : Dict HistEdge)
      (removed : List String),
      edgesMatch cfg segs edges →
      pruneInvOut cfg (pruneLoop cfg now cutoff force segs edges compact updated removed) := by
  induction segs with
  | nil =>
      intro edges compact updated removed hinv
      exact hinv
  | cons seg rest ih =>
      intro edges compact updated removed hinv
      rw [pruneLoop]
      split
      · exact hinv
      split
      · exact hinv
      split
      case h_1 a b hna hnb =>
        have hck : segCanonKey cfg seg = some (history_edge_key a b).1 := by
          unfold segCanonKey; rw [hna, hnb]
        dsimp only
        split
        case h_1 hdg =>
          exact (edgesMatch_pop_present cfg seg rest edges _ hinv hck hdg).elim
        case h_2 edge hdg =>
          split
          case isTrue hle =>
            exact ih _ _ _ _
              (edgesMatch_pop_erase cfg seg rest edges _ edge hinv hck hdg hle)
          case isFalse hle =>
            exact ih _ _ _ _
              (edgesMatch_pop_dec cfg seg rest edges _ edge _ hinv hck hdg
                (not_le.mp hle) rfl)
      case h_2 hfail =>
        refine ih _ _ _ _ (edgesMatch_skip cfg seg rest edges hinv ?_)
        unfold segCanonKey
        cases hna : normalize_history_point cfg seg.a with
        | none => cases hnb : normalize_history_point cfg seg.b <;> rfl
        | some a =>
            cases hnb : normalize_history_point cfg seg.b with
            | none => rfl
            | some b => exact (hfail a b hna hnb).elim

/-- `_prune_route_history` preserves the C6 invariant. -/
theorem prune_route_history_inv (cfg : Config) (hist : HistState) (now : ℚ)
    (force : Bool) (hinv : HistInv cfg hist) :
    HistInv cfg (prune_route_history cfg hist now force).state := by
  unfold prune_route_history
  by_cases h : ¬ cfg.historyEnabled = true ∨ hist.segments = []
  · rw [if_pos h]; exact hinv
  · rw [if_neg h]
    exact pruneLoop_edgesMatch cfg now (now - cfg.historyHours * 3600) force
      hist.segments hist.edges hist.compact [] [] hinv

/-- `_record_route_history` preserves the C6 invariant. -/
theorem record_route_history_inv (cfg : Config) (hist : HistState)
    (route : Route) (now : ℚ) (hstable : RadiusRoundStable cfg)
    (hinv : HistInv cfg hist) :
    HistInv cfg (record_route_history cfg hist route now).state := by
  unfold record_route_history
  by_cases h1 : ¬ cfg.historyEnabled = true
  · rw [if_pos h1]; exact hinv
  rw [if_neg h1]
  by_cases h2 : ¬ cfg.historyAllowedModes.isEmpty = true ∧
      (route.route_mode = "" ∨ route.route_mode ∉ cfg.historyAllowedModes)
  · rw [if_pos h2]; exact hinv
  rw [if_neg h2]
  by_cases h3 : ¬ history_payload_allowed cfg route.payload_type = true
  · rw [if_pos h3]; exact hinv
  rw [if_neg h3]
  by_cases h4 : route.points.length < 2
  · rw [if_pos h4]; exact hinv
  rw [if_neg h4]
  dsimp only
  have hrec := recordLoop_edgesMatch cfg hstable
    (history_sample_from_route route (if route.ts = 0 then now else route.ts))
    (if route.ts = 0 then now else route.ts) route.point_ids route.points 0
    hist.edges hist.segments [] []
    (by rw [List.append_nil]; exact hinv)
  by_cases h5 : (recordLoop cfg
      (history_sample_from_route route (if route.ts = 0 then now else route.ts))
      (if route.ts = 0 then now else route.ts) route.point_ids route.points 0
      hist.edges [] []).2.1.isEmpty = true
  · rw [if_pos h5]; exact hinv
  rw [if_neg h5]
  by_cases h6 : cfg.historyMaxSegments > 0 ∧
      ((hist.segments ++ (recordLoop cfg
        (history_sample_from_route route (if route.ts = 0 then now else route.ts))
        (if route.ts = 0 then now else route.ts) route.point_ids route.points 0
        hist.edges [] []).2.1).length : ℤ) > cfg.historyMaxSegments
  · rw [if_pos h6]
    exact prune_route_history_inv cfg _ now true hrec
  · rw [if_neg h6]
    exact hrec

/-- The empty history state satisfies the invariant. -/
theorem HistInv_empty (cfg : Config) :
    HistInv cfg { segments := [], edges := [], compact := false } := by
  refine ⟨fun k => rfl, fun k e hke => ?_⟩
  simp [dget] at hke

/-- A two-point path route exercising the history engine on a concrete
input. -/
def routeC6 : Route :=
  { id := "h1", points := [(1, 2), (3, 4)], hashes := ["AB", "CD"]
    point_ids := [some "dev-a", some "dev-b"], route_mode := "path"
    ts := 50, expires_at := 170, payload_type := some 3 }

/-- C6: the history-count invariant — every edge recorded in the
history-edge map has a count equal to the number of segments currently in
the deque whose endpoints canonicalize to its key, and an edge is only
present with a positive count (so an edge whose count reaches zero has been
removed).  The invariant holds of the empty initial state and is preserved
by every record operation and every prune operation (forced or not), given
that the configured radius test is stable under the six-decimal rounding
that canonicalization applies. -/
theorem history_edge_count_invariant (cfg : Config) (h : HistState)
    (route : Route) (now : ℚ) (force : Bool)
    (hstable : RadiusRoundStable cfg) (hinv : HistInv cfg h) :
    HistInv cfg { segments := [], edges := [], compact := false } ∧
    HistInv cfg (record_route_history cfg h route now).state ∧
    HistInv cfg (prune_route_history cfg h now force).state :=
  ⟨HistInv_empty cfg, record_route_history_inv cfg h route now hstable hinv,
    prune_route_history_inv cfg h now force hinv⟩

theorem history_edge_count_invariant_witness :
    HistInv cfgBase { segments := [], edges := [], compact := false } ∧
    HistInv cfgBase (record_route_history cfgBase
      { segments := [], edges := [], compact := false } routeC6 100).state ∧
    HistInv cfgBase (prune_route_history cfgBase
      { segments := [], edges := [], compact := false } 100 false).state :=
  history_edge_count_invariant cfgBase
    { segments := [], edges := [], compact := false } routeC6 100 false
    (fun _ _ _ => rfl)
    ⟨fun _ => rfl, fun _ _ hke => Option.noConfusion hke⟩

end MeshMap
